import Mathlib

/-!
# LinkNeuralNetwork: a shallow embedding of `NeuralNetwork.h`

The development embeds the class template `nn::NeuralNetwork<tInputs, tHidden, tOutputs, tBias>`
(`src/LinkNeuralNetwork/src/NeuralNetwork.h`) and the functions `randRange` and `map`
(`src/Game/utility.h`).

Conventions of the embedding:

* `double` is modelled by the exact rationals `ℚ`; `uint` and `int` loop counters, widths and
  flat indices are natural numbers (the development is about networks whose sizes stay inside
  the 32-bit range, where unsigned arithmetic is ordinary arithmetic). The edge of that range is
  met once: `NeuralNetwork.newUInt` is the constructor with its sums reduced modulo `2^32`, and
  agrees with `NeuralNetwork.new` when no sum wraps around.
* `std::array` / `std::vector` are lists; `v[i]` is `getD`, an in-place store is `List.modify`.
  The invariant `WF` records the container sizes the loops of the member functions rely on.
* `for (i = lo; i < hi; i++)` is `forRange lo hi`; `for (int i = n; i >= 0; i--)` is
  `forDownTo0 n`; the body is a state transformer.
* `rand()` is not a function of the state of the network: the value it returns at the dropout
  draw of neuron `(i, j)` is the parameter `rand i j`.
* The functions with the suffix `Checked` run the member functions with every access to
  `m_neurons` and `m_links` checked against the container sizes.
-/

namespace nn

/-! ## Containers and loops -/

/-- Element `xs[i][j]` of a nested container. -/
def get2 {α : Type} [Inhabited α] (xs : List (List α)) (i j : Nat) : α :=
  (xs.getD i []).getD j default

/-- In-place update of `xs[i][j]`. -/
def modify2 {α : Type} (xs : List (List α)) (i j : Nat) (f : α → α) : List (List α) :=
  List.modify (List.modify f j) i xs

/-- The call `xs[i].push_back(a)`. -/
def push2 {α : Type} (xs : List (List α)) (i : Nat) (a : α) : List (List α) :=
  List.modify (fun row => row ++ [a]) i xs

/-- The value of `xs[i].size()`. -/
def size2 {α : Type} (xs : List (List α)) (i : Nat) : Nat :=
  (xs.getD i []).length

/-- The loop `for (uint i = lo; i < hi; i++) body(i)` as a state transformer. -/
def forRange {σ : Type} (lo hi : Nat) (body : Nat → σ → σ) (s : σ) : σ :=
  (List.range' lo (hi - lo)).foldl (fun acc i => body i acc) s

/-- The loop `for (int i = n; i >= 0; i--) body(i)` as a state transformer. -/
def forDownTo0 {σ : Type} : Nat → (Nat → σ → σ) → σ → σ
  | 0, body, s => body 0 s
  | n + 1, body, s => forDownTo0 n body (body (n + 1) s)

/-- Modelled from the spec: `for_async(lo, hi, f, async)` of `Core.h` (not in src) runs `f(j)` for
every `j` in `lo..hi-1`, concurrently when `async` is set, with a sequential fallback; the
embedding is the sequential loop the source keeps in a comment above every call. -/
def for_async {σ : Type} (lo hi : Nat) (f : Nat → σ → σ) (s : σ) : σ :=
  forRange lo hi f s

/-! ## Data model -/

/-- Modelled from the spec: the `Activation` value object of `Neuron.h` (not in src), a value
function `funct` and a derivative function `derivate`. -/
structure Activation where
  funct : ℚ → ℚ
  derivate : ℚ → ℚ

/-- Modelled from the spec: `Activation::none`, the identity (value `x`, derivative `1`). -/
def Activation.none : Activation := ⟨fun x => x, fun _ => 1⟩

instance : Inhabited Activation := ⟨Activation.none⟩

/-- Modelled from the spec: the `Neuron` record of `Neuron.h` (not in src): current value,
pre-activation sum, propagated error, and the activation handed to its constructor. -/
structure Neuron where
  value : ℚ
  raw : ℚ
  error : ℚ
  activation : Activation
  deriving Inhabited

/-- Modelled from the spec: the constructor `Neuron(activation)` of `Neuron.h` (not in src); the
value starts at the constant `1` a bias slot holds for the whole lifetime of the network. -/
def Neuron.new (a : Activation) : Neuron := ⟨1, 0, 0, a⟩

/-- Modelled from the spec: the `Link` record of `Link.h` (not in src), one weight. -/
structure Link where
  weight : ℚ
  deriving Inhabited, DecidableEq

/-- The template parameters `<tInputs, tHidden, tOutputs, tBias>`. -/
structure Template where
  tInputs : Nat
  tHidden : Nat
  tOutputs : Nat
  tBias : Bool
  deriving DecidableEq

/-- The `tBias` template parameter as it enters `uint` arithmetic (`x + tBias`). -/
def Template.bias (T : Template) : Nat := T.tBias.toNat

/-- The private members of `NeuralNetwork`. -/
structure NeuralNetwork where
  m_neurons : List (List Neuron)
  m_links : List (List Link)
  m_structure : List Nat
  m_activation : Activation

namespace NeuralNetwork

/-- The neuron `m_neurons[i][j]`. -/
def neuron (net : NeuralNetwork) (i j : Nat) : Neuron := get2 net.m_neurons i j

/-- The link `m_links[i][index]`. -/
def link (net : NeuralNetwork) (i index : Nat) : Link := get2 net.m_links i index

/-- The width `m_structure[i]`. -/
def width (net : NeuralNetwork) (i : Nat) : Nat := net.m_structure.getD i 0

/-- A store into a field of `m_neurons[i][j]`. -/
def modifyNeuron (net : NeuralNetwork) (i j : Nat) (f : Neuron → Neuron) : NeuralNetwork :=
  { net with m_neurons := modify2 net.m_neurons i j f }

/-- A store into `m_links[i][index]`. -/
def modifyLink (net : NeuralNetwork) (i index : Nat) (f : Link → Link) : NeuralNetwork :=
  { net with m_links := modify2 net.m_links i index f }

end NeuralNetwork

/-! ## Constructor (`NeuralNetwork.h` lines 47-101) -/

/-- The constructor `NeuralNetwork(hiddenLayers, activation, linkInitalRange)`.
`newLink range i n1 n2` is the link `Link(linkInitalRange)` builds at iteration `(i, n1, n2)` of
the link loops (`Link.h` is not in src; its constructor draws the weight at random). -/
def NeuralNetwork.new (T : Template) (hiddenLayers : List Nat) (activation : Activation)
    (linkInitalRange : ℚ × ℚ) (newLink : ℚ × ℚ → Nat → Nat → Nat → Link) : NeuralNetwork :=
  -- Store the structure
  let st : List Nat := (List.replicate (T.tHidden + 2) 0).set 0 T.tInputs
  let st := forRange 0 T.tHidden (fun i st => st.set (i + 1) (hiddenLayers.getD i 0)) st
  let st := st.set (T.tHidden + 1) T.tOutputs
  -- Create the neurons: inputs, hidden, outputs
  let ns : List (List Neuron) := List.replicate (T.tHidden + 2) []
  let ns := forRange 0 (T.tInputs + T.bias) (fun _ ns => push2 ns 0 (Neuron.new Activation.none)) ns
  let ns := forRange 0 T.tHidden (fun i ns =>
    forRange 0 (hiddenLayers.getD i 0 + T.bias) (fun _ ns =>
      push2 ns (i + 1) (Neuron.new activation)) ns) ns
  let ns := forRange 0 T.tOutputs (fun _ ns => push2 ns (T.tHidden + 1) (Neuron.new activation)) ns
  -- Create the links
  let ls : List (List Link) := List.replicate (T.tHidden + 1) []
  let ls := forRange 0 (T.tHidden + 1) (fun i ls =>
    forRange 0 (st.getD i 0 + T.bias) (fun n1 ls =>
      forRange 0 (st.getD (i + 1) 0) (fun n2 ls =>
        push2 ls i (newLink linkInitalRange i n1 n2)) ls) ls) ls
  { m_neurons := ns, m_links := ls, m_structure := st, m_activation := activation }

/-! ## Forward pass (`NeuralNetwork.h` lines 109-157) -/

/-- The flat index of the link from source `k` to destination `j` when the destination layer
has `width` neurons: `k * m_structure[i] + j`. -/
def linkIndex (width k j : Nat) : Nat := k * width + j

/-- The member function `Calculate(inputs, async)`: the network after the call and the returned
array. -/
def Calculate (T : Template) (net : NeuralNetwork) (inputs : List ℚ) : NeuralNetwork × List ℚ :=
  -- Set the value of the neurons from the first layer to the input
  let net := forRange 0 T.tInputs (fun i net =>
    net.modifyNeuron 0 i (fun x => { x with value := inputs.getD i 0 })) net
  -- For each neuron from second layer (skip the input layer)
  let net := forRange 1 (T.tHidden + 2) (fun i net =>
    for_async 0 (net.width i) (fun j net =>
      let sum := forRange 0 (net.width (i - 1) + T.bias) (fun k sum =>
        let index := linkIndex (net.width i) k j
        sum + (net.link (i - 1) index).weight * (net.neuron (i - 1) k).value) 0
      let net := net.modifyNeuron i j (fun x => { x with value := x.activation.funct sum })
      net.modifyNeuron i j (fun x => { x with raw := sum })) net) net
  -- Set the output array to be the last layer of the net
  let out := forRange 0 T.tOutputs (fun i out =>
    out.set i (net.neuron (T.tHidden + 1) i).value) (List.replicate T.tOutputs 0)
  (net, out)

/-! ## Random draw (`utility.h` lines 47-50) -/

/-- The function `randRange(min, max)`; `r` is the value the call `rand()` returns and `RAND_MAX`
the constant of `<cstdlib>`. -/
def randRange (RAND_MAX : Nat) (r : Nat) (min max : ℚ) : ℚ :=
  min + ((r : ℚ) / ((RAND_MAX : ℚ) / ((max + 0) - min)))

/-! ## Training step (`NeuralNetwork.h` lines 159-230) -/

/-- The member function `Train(inputs, optimal, lRate, dropout, async)`: the network after the
call and the returned error. `rand i j` is the value `rand()` returns at the dropout draw of
neuron `j` of layer `i`. -/
def Train (RAND_MAX : Nat) (rand : Nat → Nat → Nat) (T : Template) (net : NeuralNetwork)
    (inputs optimal : List ℚ) (lRate dropout : ℚ) : NeuralNetwork × ℚ :=
  -- Make the guess to calculate the error
  let (net, guess) := Calculate T net inputs
  -- Dropout
  let net :=
    if dropout > 0 then
      forRange 1 (T.tHidden + 1) (fun i net =>
        for_async 0 (net.width i) (fun j net =>
          if randRange RAND_MAX (rand i j) 0 1 < dropout then
            let net := net.modifyNeuron i j (fun x => { x with value := 0 })
            net.modifyNeuron i j (fun x => { x with raw := 0 })
          else net) net) net
    else net
  -- Calculate errors
  let net := forRange 0 T.tOutputs (fun i net =>
    net.modifyNeuron (T.tHidden + 1) i (fun x =>
      { x with error := optimal.getD i 0 - guess.getD i 0 })) net
  let net := forDownTo0 T.tHidden (fun i net =>
    for_async 0 (net.width i + T.bias) (fun j net =>
      let net := net.modifyNeuron i j (fun x => { x with error := 0 })
      forRange 0 (net.width (i + 1)) (fun k net =>
        let index := linkIndex (net.width (i + 1)) j k
        net.modifyNeuron i j (fun x =>
          { x with error := x.error + (net.link i index).weight * (net.neuron (i + 1) k).error }))
        net) net) net
  -- Adjust the weights
  let net := forRange 0 (T.tHidden + 1) (fun i net =>
    for_async 0 (net.width i + T.bias) (fun j net =>
      forRange 0 (net.width (i + 1)) (fun k net =>
        let index := linkIndex (net.width (i + 1)) j k
        let delta := (net.neuron (i + 1) k).activation.derivate (net.neuron (i + 1) k).raw
          * (net.neuron (i + 1) k).error * (net.neuron i j).value * lRate
        net.modifyLink i index (fun l => { l with weight := l.weight + delta })) net) net) net
  let err := (net.m_neurons.getD (T.tHidden + 1) []).foldl (fun err x => err + |x.error|) 0
  (net, err / (T.tOutputs : ℚ))

/-! ## Persistence (`NeuralNetwork.h` lines 232-311) -/

/-- What stops `LoadFromFile` short of a `return`: `std::stoi` / `std::stod` throwing on a line
they cannot convert, or `save[n]` read past the end of the vector. -/
inductive Fault where
  | exception
  | outOfBounds
  deriving DecidableEq, Repr

/-- How a call of `LoadFromFile` ends. -/
inductive LoadOutcome where
  | returned (ok : Bool)
  | failed (f : Fault)
  deriving DecidableEq, Repr

/-- The conversion of an `int` to `uint` that a comparison of the two performs. -/
def toUInt (z : Int) : Nat := (z % 4294967296).toNat

/-- The expression `std::stoi(save[n])`; `stoi s = none` when `std::stoi` throws on `s`. -/
def stoiAt (stoi : String → Option Int) (save : List String) (n : Nat) : Except Fault Int :=
  match save[n]? with
  | none => .error .outOfBounds
  | some s =>
    match stoi s with
    | none => .error .exception
    | some z => .ok z

/-- The expression `std::stod(save[n])`; `stod s = none` when `std::stod` throws on `s`. -/
def stodAt (stod : String → Option ℚ) (save : List String) (n : Nat) : Except Fault ℚ :=
  match save[n]? with
  | none => .error .outOfBounds
  | some s =>
    match stod s with
    | none => .error .exception
    | some w => .ok w

/-- The state of the weight loops of `LoadFromFile`: the network, the running `index`, and the
fault that stopped the loops, if any. -/
structure LoadState where
  net : NeuralNetwork
  index : Nat
  fault : Option Fault

/-- The hidden-width loop of `LoadFromFile` (lines 289-296): `none` when the loop runs to its
end, otherwise how the function ends inside the loop. -/
def checkHidden (stoi : String → Option Int) (T : Template) (net : NeuralNetwork)
    (save : List String) : Option LoadOutcome :=
  forRange 1 (T.tHidden + 1) (fun i (r : Option LoadOutcome) =>
    match r with
    | some o => some o
    | none =>
      match stoiAt stoi save (i + 3) with
      | .error f => some (.failed f)
      | .ok z => if net.width i ≠ toUInt z then some (.returned false) else none) none

/-- The weight loops of `LoadFromFile` (lines 298-306). -/
def loadWeights (stod : String → Option ℚ) (T : Template) (net : NeuralNetwork)
    (save : List String) : LoadState :=
  forRange 0 (T.tHidden + 1) (fun i st =>
    forRange 0 (size2 st.net.m_links i) (fun j st =>
      match st.fault with
      | some _ => st
      | none =>
        match stodAt stod save (st.index + 3 + T.tHidden + 1) with
        | .error f => { st with fault := some f }
        | .ok w =>
          { net := st.net.modifyLink i j (fun l => { l with weight := w }),
            index := st.index + 1, fault := none }) st)
    { net := net, index := 0, fault := none }

/-- The member function `LoadFromFile(path)`; `save` is the vector of lines `FileToArray`
(`Core.h`, not in src) reads from the file. The result is how the call ends and the network
it leaves behind. -/
def LoadFromFile (stoi : String → Option Int) (stod : String → Option ℚ) (T : Template)
    (net : NeuralNetwork) (save : List String) : LoadOutcome × NeuralNetwork :=
  match stoiAt stoi save 0 with
  | .error f => (.failed f, net)
  | .ok b =>
  if (decide (b ≠ 0)) ≠ T.tBias then (.returned false, net) else
  match stoiAt stoi save 1 with
  | .error f => (.failed f, net)
  | .ok nIn =>
  if toUInt nIn ≠ T.tInputs then (.returned false, net) else
  match stoiAt stoi save 2 with
  | .error f => (.failed f, net)
  | .ok nOut =>
  if toUInt nOut ≠ T.tOutputs then (.returned false, net) else
  match stoiAt stoi save 3 with
  | .error f => (.failed f, net)
  | .ok nHid =>
  if toUInt nHid ≠ T.tHidden then (.returned false, net) else
  match checkHidden stoi T net save with
  | some o => (o, net)
  | none =>
  let st := loadWeights stod T net save
  match st.fault with
  | some f => (.failed f, st.net)
  | none => (.returned true, st.net)

/-! ## Well-formed networks -/

/-- The part of a network no member function changes: the widths, the activation of the
network and of every neuron slot, and the number of links of every gap. -/
def NeuralNetwork.frame (net : NeuralNetwork) :
    List Nat × Activation × List (List Activation) × List Nat :=
  (net.m_structure, net.m_activation, net.m_neurons.map (List.map Neuron.activation),
    net.m_links.map List.length)

/-- The representation invariant the constructor establishes. -/
structure WF (T : Template) (net : NeuralNetwork) : Prop where
  structure_length : net.m_structure.length = T.tHidden + 2
  width_inputs : net.width 0 = T.tInputs
  width_outputs : net.width (T.tHidden + 1) = T.tOutputs
  neurons_length : net.m_neurons.length = T.tHidden + 2
  neurons_size : ∀ i, i ≤ T.tHidden → size2 net.m_neurons i = net.width i + T.bias
  outputs_size : size2 net.m_neurons (T.tHidden + 1) = T.tOutputs
  links_length : net.m_links.length = T.tHidden + 1
  links_size : ∀ i, i ≤ T.tHidden →
    size2 net.m_links i = (net.width i + T.bias) * net.width (i + 1)
  activation : ∀ i j, 1 ≤ i → j < size2 net.m_neurons i →
    (net.neuron i j).activation = net.m_activation

/-- The networks of template `T` a program can hold: built by the constructor from `tHidden`
hidden widths, then passed through any sequence of `Calculate`, `Train` and `LoadFromFile`. -/
inductive Built (T : Template) : NeuralNetwork → Prop where
  | ctor (hiddenLayers : List Nat) (activation : Activation) (linkInitalRange : ℚ × ℚ)
      (newLink : ℚ × ℚ → Nat → Nat → Nat → Link) (h : hiddenLayers.length = T.tHidden) :
      Built T (NeuralNetwork.new T hiddenLayers activation linkInitalRange newLink)
  | calculate (net : NeuralNetwork) (inputs : List ℚ) (h : Built T net) :
      Built T (Calculate T net inputs).1
  | train (RAND_MAX : Nat) (rand : Nat → Nat → Nat) (net : NeuralNetwork)
      (inputs optimal : List ℚ) (lRate dropout : ℚ) (h : Built T net) :
      Built T (Train RAND_MAX rand T net inputs optimal lRate dropout).1
  | load (stoi : String → Option Int) (stod : String → Option ℚ) (net : NeuralNetwork)
      (save : List String) (h : Built T net) :
      Built T (LoadFromFile stoi stod T net save).2

/-! ## The phases of `Calculate`, named for the proofs -/

/-- The weighted sum the forward pass accumulates for neuron `j` of layer `i`. -/
def NeuralNetwork.weightedSum (T : Template) (net : NeuralNetwork) (i j : Nat) : ℚ :=
  ∑ k ∈ Finset.range (net.width (i - 1) + T.bias),
    (net.link (i - 1) (linkIndex (net.width i) k j)).weight * (net.neuron (i - 1) k).value

/-- The first loop of `Calculate`: the inputs are copied into layer 0. -/
def setInputs (T : Template) (net : NeuralNetwork) (inputs : List ℚ) : NeuralNetwork :=
  forRange 0 T.tInputs (fun i net =>
    net.modifyNeuron 0 i (fun x => { x with value := inputs.getD i 0 })) net

/-- The body of the `for_async` call of `Calculate`: neuron `j` of layer `i`. -/
def forwardNeuron (T : Template) (i j : Nat) (net : NeuralNetwork) : NeuralNetwork :=
  let sum := forRange 0 (net.width (i - 1) + T.bias) (fun k sum =>
    let index := linkIndex (net.width i) k j
    sum + (net.link (i - 1) index).weight * (net.neuron (i - 1) k).value) 0
  let net := net.modifyNeuron i j (fun x => { x with value := x.activation.funct sum })
  net.modifyNeuron i j (fun x => { x with raw := sum })

/-- One iteration of the layer loop of `Calculate`. -/
def forwardLayer (T : Template) (i : Nat) (net : NeuralNetwork) : NeuralNetwork :=
  for_async 0 (net.width i) (forwardNeuron T i) net

/-- The layer loop of `Calculate`. -/
def forwardLayers (T : Template) (net : NeuralNetwork) : NeuralNetwork :=
  forRange 1 (T.tHidden + 2) (forwardLayer T) net

/-! ## The phases of `Train`, named for the proofs -/

/-- The dropout step of `Train` (lines 165-180). -/
def dropoutStep (RAND_MAX : Nat) (rand : Nat → Nat → Nat) (T : Template) (dropout : ℚ)
    (net : NeuralNetwork) : NeuralNetwork :=
  if dropout > 0 then
    forRange 1 (T.tHidden + 1) (fun i net =>
      for_async 0 (net.width i) (fun j net =>
        if randRange RAND_MAX (rand i j) 0 1 < dropout then
          let net := net.modifyNeuron i j (fun x => { x with value := 0 })
          net.modifyNeuron i j (fun x => { x with raw := 0 })
        else net) net) net
  else net

/-- The output-error loop of `Train` (lines 183-186). -/
def setOutputErrors (T : Template) (optimal guess : List ℚ) (net : NeuralNetwork) :
    NeuralNetwork :=
  forRange 0 T.tOutputs (fun i net =>
    net.modifyNeuron (T.tHidden + 1) i (fun x =>
      { x with error := optimal.getD i 0 - guess.getD i 0 })) net

/-- The sum the backward pass accumulates into the error of neuron `j` of layer `i`. -/
def NeuralNetwork.errorSum (net : NeuralNetwork) (i j : Nat) : ℚ :=
  ∑ k ∈ Finset.range (net.width (i + 1)),
    (net.link i (linkIndex (net.width (i + 1)) j k)).weight * (net.neuron (i + 1) k).error

/-- The body of the `for_async` call of the error loop: neuron `j` of layer `i`. -/
def backNeuron (i j : Nat) (net : NeuralNetwork) : NeuralNetwork :=
  let net := net.modifyNeuron i j (fun x => { x with error := 0 })
  forRange 0 (net.width (i + 1)) (fun k net =>
    let index := linkIndex (net.width (i + 1)) j k
    net.modifyNeuron i j (fun x =>
      { x with error := x.error + (net.link i index).weight * (net.neuron (i + 1) k).error }))
    net

/-- One iteration of the error loop of `Train`. -/
def backLayer (T : Template) (i : Nat) (net : NeuralNetwork) : NeuralNetwork :=
  for_async 0 (net.width i + T.bias) (backNeuron i) net

/-- The error loop of `Train` (lines 188-203). -/
def propagateErrors (T : Template) (net : NeuralNetwork) : NeuralNetwork :=
  forDownTo0 T.tHidden (backLayer T) net

/-- The `delta` the weight update adds to the link from source `j` of layer `i` to destination
`k` of layer `i + 1`. -/
def NeuralNetwork.delta (net : NeuralNetwork) (lRate : ℚ) (i j k : Nat) : ℚ :=
  (net.neuron (i + 1) k).activation.derivate (net.neuron (i + 1) k).raw
    * (net.neuron (i + 1) k).error * (net.neuron i j).value * lRate

/-- The body of the innermost weight loop. -/
def updateLink (lRate : ℚ) (i j k : Nat) (net : NeuralNetwork) : NeuralNetwork :=
  let index := linkIndex (net.width (i + 1)) j k
  let delta := (net.neuron (i + 1) k).activation.derivate (net.neuron (i + 1) k).raw
    * (net.neuron (i + 1) k).error * (net.neuron i j).value * lRate
  net.modifyLink i index (fun l => { l with weight := l.weight + delta })

/-- The body of the `for_async` call of the weight loop: the links leaving source `j`. -/
def updateSource (lRate : ℚ) (i j : Nat) (net : NeuralNetwork) : NeuralNetwork :=
  forRange 0 (net.width (i + 1)) (updateLink lRate i j) net

/-- One iteration of the weight loop of `Train`. -/
def updateGap (T : Template) (lRate : ℚ) (i : Nat) (net : NeuralNetwork) : NeuralNetwork :=
  for_async 0 (net.width i + T.bias) (updateSource lRate i) net

/-- The weight loop of `Train` (lines 205-221). -/
def adjustWeights (T : Template) (lRate : ℚ) (net : NeuralNetwork) : NeuralNetwork :=
  forRange 0 (T.tHidden + 1) (updateGap T lRate) net

/-- The network `Train` holds when it starts to adjust the weights: forward pass, dropout,
output errors and propagated errors are done. -/
def trainErrors (RAND_MAX : Nat) (rand : Nat → Nat → Nat) (T : Template) (net : NeuralNetwork)
    (inputs optimal : List ℚ) (dropout : ℚ) : NeuralNetwork :=
  propagateErrors T (setOutputErrors T optimal (Calculate T net inputs).2
    (dropoutStep RAND_MAX rand T dropout (Calculate T net inputs).1))

/-! ## The parts of the constructor, named for the proofs -/

/-- The array `m_structure` the constructor stores. -/
def newStructure (T : Template) (hiddenLayers : List Nat) : List Nat :=
  let st : List Nat := (List.replicate (T.tHidden + 2) 0).set 0 T.tInputs
  let st := forRange 0 T.tHidden (fun i st => st.set (i + 1) (hiddenLayers.getD i 0)) st
  st.set (T.tHidden + 1) T.tOutputs

/-- The array `m_neurons` the constructor creates. -/
def newNeurons (T : Template) (hiddenLayers : List Nat) (activation : Activation) :
    List (List Neuron) :=
  let ns : List (List Neuron) := List.replicate (T.tHidden + 2) []
  let ns := forRange 0 (T.tInputs + T.bias) (fun _ ns => push2 ns 0 (Neuron.new Activation.none)) ns
  let ns := forRange 0 T.tHidden (fun i ns =>
    forRange 0 (hiddenLayers.getD i 0 + T.bias) (fun _ ns =>
      push2 ns (i + 1) (Neuron.new activation)) ns) ns
  forRange 0 T.tOutputs (fun _ ns => push2 ns (T.tHidden + 1) (Neuron.new activation)) ns

/-- The array `m_links` the constructor creates. -/
def newLinks (T : Template) (st : List Nat) (linkInitalRange : ℚ × ℚ)
    (newLink : ℚ × ℚ → Nat → Nat → Nat → Link) : List (List Link) :=
  forRange 0 (T.tHidden + 1) (fun i ls =>
    forRange 0 (st.getD i 0 + T.bias) (fun n1 ls =>
      forRange 0 (st.getD (i + 1) 0) (fun n2 ls =>
        push2 ls i (newLink linkInitalRange i n1 n2)) ls) ls) (List.replicate (T.tHidden + 1) [])

/-- Every neuron stored in a row `k ≥ 1` carries the activation `act`. -/
def RowsActivated (act : Activation) (ns : List (List Neuron)) : Prop :=
  ∀ k, 1 ≤ k → ∀ x ∈ ns.getD k [], x.activation = act

/-! ## The concrete scenario: inputs = 2, hidden = [2], outputs = 1, bias on -/

/-- The template `<2, 1, 1, true>`. -/
def scenarioTemplate : Template := ⟨2, 1, 1, true⟩

/-- The network of the scenario with identity activation, whose link from source `n1` to
destination `n2` in gap `i` has the weight `w i n1 n2`. -/
def scenarioNet (w : Nat → Nat → Nat → ℚ) : NeuralNetwork :=
  NeuralNetwork.new scenarioTemplate [2] Activation.none (-5, 5) (fun _ i n1 n2 => ⟨w i n1 n2⟩)

/-- The weight set `1..6` on the first gap, `-1/2, 1/2, 3/2` on the second. -/
def scenarioWeights : Nat → Nat → Nat → ℚ
  | 0, n1, n2 => (n1 : ℚ) * 2 + n2 + 1
  | _, n1, _ => (n1 : ℚ) - 1 / 2

/-! ## Reading the header, named for the proofs -/

/-- Line `p` of the file, converted to `z`, agrees with the live network: the bias flag with
`tBias` (line 0), the widths and the hidden count with `tInputs`, `tOutputs`, `tHidden`
(lines 1-3), hidden width `p - 3` with `m_structure[p - 3]` (lines 4 and on). The comparisons are
the ones `LoadFromFile` performs. -/
def headerAgrees (T : Template) (net : NeuralNetwork) (p : Nat) (z : Int) : Prop :=
  match p with
  | 0 => decide (z ≠ 0) = T.tBias
  | 1 => toUInt z = T.tInputs
  | 2 => toUInt z = T.tOutputs
  | 3 => toUInt z = T.tHidden
  | q + 4 => net.width (q + 1) = toUInt z

/-- The header checks of `LoadFromFile` (lines 269-296): `none` when the function goes on to
the weight loops, otherwise how it ends. -/
def checkHeader (stoi : String → Option Int) (T : Template) (net : NeuralNetwork)
    (save : List String) : Option LoadOutcome :=
  match stoiAt stoi save 0 with
  | .error f => some (.failed f)
  | .ok b =>
  if (decide (b ≠ 0)) ≠ T.tBias then some (.returned false) else
  match stoiAt stoi save 1 with
  | .error f => some (.failed f)
  | .ok nIn =>
  if toUInt nIn ≠ T.tInputs then some (.returned false) else
  match stoiAt stoi save 2 with
  | .error f => some (.failed f)
  | .ok nOut =>
  if toUInt nOut ≠ T.tOutputs then some (.returned false) else
  match stoiAt stoi save 3 with
  | .error f => some (.failed f)
  | .ok nHid =>
  if toUInt nHid ≠ T.tHidden then some (.returned false) else
  checkHidden stoi T net save

/-- The number of weight lines the weight loops have read when they reach gap `i`. -/
def NeuralNetwork.linkOffset (net : NeuralNetwork) (i : Nat) : Nat :=
  ∑ a ∈ Finset.range i, size2 net.m_links a

/-- The end of `LoadFromFile` (lines 298-310), once the header has been accepted. -/
def loadTail (stod : String → Option ℚ) (T : Template) (net : NeuralNetwork)
    (save : List String) : LoadOutcome × NeuralNetwork :=
  let st := loadWeights stod T net save
  match st.fault with
  | some f => (.failed f, st.net)
  | none => (.returned true, st.net)

/-! ## Decimal numerals, for the concrete files -/

/-- The white-space characters of `isspace`: space, `\t`, `\n`, `\v`, `\f`, `\r`. -/
def isSpace (c : Char) : Bool := c = ' ' || (9 ≤ c.toNat && c.toNat ≤ 13)

/-- The values of the longest run of decimal digits at the head of the text. -/
def leadingDigits : List Char → List Nat
  | [] => []
  | c :: cs => if c.isDigit then (c.toNat - 48) :: leadingDigits cs else []

/-- The number a run of decimal digits denotes. -/
def natOfDigits (ds : List Nat) : Nat := ds.foldl (fun n d => 10 * n + d) 0

/-- The conversion `std::stoi` performs on decimal text: leading white space, an optional sign,
the longest run of digits; `none` (the call throws) when there is no digit or the value does
not fit an `int`. -/
def stoiModel (s : String) : Option Int :=
  let cs := s.toList.dropWhile isSpace
  let neg := cs.head? = some '-'
  let cs := if cs.head? = some '-' ∨ cs.head? = some '+' then cs.tail else cs
  let ds := leadingDigits cs
  if ds = [] then none
  else
    let z : Int := if neg then - (natOfDigits ds : Int) else (natOfDigits ds : Int)
    if -2147483648 ≤ z ∧ z ≤ 2147483647 then some z else none

/-- The conversion `std::stod` performs on text that starts with a decimal numeral (digits, an
optional fraction, an optional exponent), read as the exact rational the numeral denotes; `none`
(the call throws) when the text starts with no digit. Hexadecimal numerals, `inf` and `nan` are
not covered by this reading. -/
def stodModel (s : String) : Option ℚ :=
  let cs := s.toList.dropWhile isSpace
  let neg := cs.head? = some '-'
  let cs := if cs.head? = some '-' ∨ cs.head? = some '+' then cs.tail else cs
  let ip := leadingDigits cs
  let rest := cs.drop ip.length
  let fp := if rest.head? = some '.' then leadingDigits rest.tail else []
  let rest := if rest.head? = some '.' then rest.tail.drop fp.length else rest
  if ip = [] ∧ fp = [] then none
  else
    let hasExp := rest.head? = some 'e' ∨ rest.head? = some 'E'
    let ecs := rest.tail
    let eneg := ecs.head? = some '-'
    let ecs := if ecs.head? = some '-' ∨ ecs.head? = some '+' then ecs.tail else ecs
    let ep := if hasExp then leadingDigits ecs else []
    let m : ℚ := (natOfDigits (ip ++ fp) : ℚ) / 10 ^ fp.length
    let m := if eneg then m / 10 ^ natOfDigits ep else m * 10 ^ natOfDigits ep
    some (if neg then -m else m)

/-- The template `<1, 0, 1, true>`: one input, no hidden layer, one output, bias on. -/
def smallTemplate : Template := ⟨1, 0, 1, true⟩

/-- A network of template `<1, 0, 1, true>` whose two links weigh `3` and `4`. -/
def smallNet : NeuralNetwork :=
  NeuralNetwork.new smallTemplate [] Activation.none (-5, 5) (fun _ _ n1 _ => ⟨(n1 : ℚ) + 3⟩)

/-! ## Value mapping (`utility.h` lines 42-45) -/

/-- The result of an expression over `double`: a finite number, read as the exact rational, or
one of the values a division by zero produces (an infinity or a NaN). -/
inductive DoubleResult where
  | finite (q : ℚ)
  | nonFinite
  deriving DecidableEq

/-- The function `map(value, inputMin, inputMax, outputMin, outputMax)`. The quotient is taken
whatever the divisor is; with the divisor `inputMax - inputMin = 0` it is an infinity or a NaN
and so is the value returned. -/
def map (value inputMin inputMax outputMin outputMax : ℚ) : DoubleResult :=
  if inputMax - inputMin = 0 then .nonFinite
  else .finite (outputMin + ((outputMax - outputMin) / (inputMax - inputMin)) * (value - inputMin))

/-! ## Construction, as a call that may fail -/

/-- A read of `m_neurons[i][j]`; `none` when `i` or `j` is out of bounds. -/
def NeuralNetwork.neuronChecked (net : NeuralNetwork) (i j : Nat) : Option Neuron :=
  if i < net.m_neurons.length ∧ j < size2 net.m_neurons i then some (net.neuron i j) else none

/-- A read of `m_links[i][index]`; `none` when `i` or `index` is out of bounds. -/
def NeuralNetwork.linkChecked (net : NeuralNetwork) (i index : Nat) : Option Link :=
  if i < net.m_links.length ∧ index < size2 net.m_links i then some (net.link i index) else none

/-- A store into `m_neurons[i][j]`; `none` when `i` or `j` is out of bounds. -/
def NeuralNetwork.modifyNeuronChecked (net : NeuralNetwork) (i j : Nat) (f : Neuron → Neuron) :
    Option NeuralNetwork :=
  if i < net.m_neurons.length ∧ j < size2 net.m_neurons i then some (net.modifyNeuron i j f)
  else none

/-- A store into `m_links[i][index]`; `none` when `i` or `index` is out of bounds. -/
def NeuralNetwork.modifyLinkChecked (net : NeuralNetwork) (i index : Nat) (f : Link → Link) :
    Option NeuralNetwork :=
  if i < net.m_links.length ∧ index < size2 net.m_links i then some (net.modifyLink i index f)
  else none

/-- The loop `for (i = lo; i < hi; i++) body(i)` whose body may fail: once an iteration has
failed, the run has ended. -/
def forRangeM {σ : Type} (lo hi : Nat) (body : Nat → σ → Option σ) (s : σ) : Option σ :=
  forRange lo hi (fun i r => r.bind (body i)) (some s)

/-- The loop `for (int i = n; i >= 0; i--) body(i)` whose body may fail. -/
def forDownTo0M {σ : Type} (n : Nat) (body : Nat → σ → Option σ) (s : σ) : Option σ :=
  forDownTo0 n (fun i r => r.bind (body i)) (some s)

/-- The first loop of `Calculate` (lines 116-119), checked. -/
def setInputsChecked (T : Template) (net : NeuralNetwork) (inputs : List ℚ) :
    Option NeuralNetwork :=
  forRangeM 0 T.tInputs (fun i net =>
    net.modifyNeuronChecked 0 i (fun x => { x with value := inputs.getD i 0 })) net

/-- The body of the `for_async` call of `Calculate` (lines 130-146), checked. -/
def forwardNeuronChecked (T : Template) (i j : Nat) (net : NeuralNetwork) :
    Option NeuralNetwork := do
  let sum ← forRangeM 0 (net.width (i - 1) + T.bias) (fun k sum => do
    let index := linkIndex (net.width i) k j
    let l ← net.linkChecked (i - 1) index
    let x ← net.neuronChecked (i - 1) k
    pure (sum + l.weight * x.value)) (0 : ℚ)
  let net ← net.modifyNeuronChecked i j (fun x => { x with value := x.activation.funct sum })
  net.modifyNeuronChecked i j (fun x => { x with raw := sum })

/-- One iteration of the layer loop of `Calculate`, checked. -/
def forwardLayerChecked (T : Template) (i : Nat) (net : NeuralNetwork) : Option NeuralNetwork :=
  forRangeM 0 (net.width i) (forwardNeuronChecked T i) net

/-- The member function `Calculate` (lines 109-157), checked. -/
def CalculateChecked (T : Template) (net : NeuralNetwork) (inputs : List ℚ) :
    Option (NeuralNetwork × List ℚ) := do
  let net ← setInputsChecked T net inputs
  let net ← forRangeM 1 (T.tHidden + 2) (forwardLayerChecked T) net
  let out ← forRangeM 0 T.tOutputs (fun i out => do
    let x ← net.neuronChecked (T.tHidden + 1) i
    pure (out.set i x.value)) (List.replicate T.tOutputs 0)
  pure (net, out)

/-- The dropout step of `Train` (lines 165-180), checked. -/
def dropoutStepChecked (RAND_MAX : Nat) (rand : Nat → Nat → Nat) (T : Template) (dropout : ℚ)
    (net : NeuralNetwork) : Option NeuralNetwork :=
  if dropout > 0 then
    forRangeM 1 (T.tHidden + 1) (fun i net =>
      forRangeM 0 (net.width i) (fun j net =>
        if randRange RAND_MAX (rand i j) 0 1 < dropout then do
          let net ← net.modifyNeuronChecked i j (fun x => { x with value := 0 })
          net.modifyNeuronChecked i j (fun x => { x with raw := 0 })
        else some net) net) net
  else some net

/-- The output-error loop of `Train` (lines 183-186), checked. -/
def setOutputErrorsChecked (T : Template) (optimal guess : List ℚ) (net : NeuralNetwork) :
    Option NeuralNetwork :=
  forRangeM 0 T.tOutputs (fun i net =>
    net.modifyNeuronChecked (T.tHidden + 1) i (fun x =>
      { x with error := optimal.getD i 0 - guess.getD i 0 })) net

/-- The body of the `for_async` call of the error loop (lines 193-201), checked. -/
def backNeuronChecked (i j : Nat) (net : NeuralNetwork) : Option NeuralNetwork := do
  let net ← net.modifyNeuronChecked i j (fun x => { x with error := 0 })
  forRangeM 0 (net.width (i + 1)) (fun k net => do
    let index := linkIndex (net.width (i + 1)) j k
    let l ← net.linkChecked i index
    let y ← net.neuronChecked (i + 1) k
    net.modifyNeuronChecked i j (fun x => { x with error := x.error + l.weight * y.error }))
    net

/-- The error loop of `Train` (lines 188-203), checked. -/
def propagateErrorsChecked (T : Template) (net : NeuralNetwork) : Option NeuralNetwork :=
  forDownTo0M T.tHidden (fun i net =>
    forRangeM 0 (net.width i + T.bias) (backNeuronChecked i) net) net

/-- The body of the innermost weight loop (lines 213-218), checked. -/
def updateLinkChecked (lRate : ℚ) (i j k : Nat) (net : NeuralNetwork) : Option NeuralNetwork := do
  let index := linkIndex (net.width (i + 1)) j k
  let y ← net.neuronChecked (i + 1) k
  let x ← net.neuronChecked i j
  let delta := y.activation.derivate y.raw * y.error * x.value * lRate
  net.modifyLinkChecked i index (fun l => { l with weight := l.weight + delta })

/-- The weight loop of `Train` (lines 205-221), checked. -/
def adjustWeightsChecked (T : Template) (lRate : ℚ) (net : NeuralNetwork) :
    Option NeuralNetwork :=
  forRangeM 0 (T.tHidden + 1) (fun i net =>
    forRangeM 0 (net.width i + T.bias) (fun j net =>
      forRangeM 0 (net.width (i + 1)) (updateLinkChecked lRate i j) net) net) net

/-- The member function `Train` (lines 159-230), checked. -/
def TrainChecked (RAND_MAX : Nat) (rand : Nat → Nat → Nat) (T : Template) (net : NeuralNetwork)
    (inputs optimal : List ℚ) (lRate dropout : ℚ) : Option (NeuralNetwork × ℚ) := do
  let (net, guess) ← CalculateChecked T net inputs
  let net ← dropoutStepChecked RAND_MAX rand T dropout net
  let net ← setOutputErrorsChecked T optimal guess net
  let net ← propagateErrorsChecked T net
  let net ← adjustWeightsChecked T lRate net
  let err := (net.m_neurons.getD (T.tHidden + 1) []).foldl (fun err x => err + |x.error|) 0
  pure (net, err / (T.tOutputs : ℚ))

/-! ## The constructor in `unsigned int` arithmetic -/

/-- The value of a sum the program computes in `unsigned int`. -/
def uintSum (a b : Nat) : Nat := (a + b) % 4294967296

/-- The constructor once more, with every sum of two `uint` values reduced modulo `2^32` as
`unsigned int` arithmetic computes it: the array sizes `tHidden + 2` and `tHidden + 1`, the loop
bounds `tInputs + tBias`, `hiddenLayers[i] + tBias`, `tHidden + 1` and `m_structure[i] + tBias`,
and the indices `i + 1`. -/
def NeuralNetwork.newUInt (T : Template) (hiddenLayers : List Nat) (activation : Activation)
    (linkInitalRange : ℚ × ℚ) (newLink : ℚ × ℚ → Nat → Nat → Nat → Link) : NeuralNetwork :=
  -- Store the structure
  let st : List Nat := (List.replicate (uintSum T.tHidden 2) 0).set 0 T.tInputs
  let st := forRange 0 T.tHidden (fun i st => st.set (uintSum i 1) (hiddenLayers.getD i 0)) st
  let st := st.set (uintSum T.tHidden 2 - 1) T.tOutputs
  -- Create the neurons: inputs, hidden, outputs
  let ns : List (List Neuron) := List.replicate (uintSum T.tHidden 2) []
  let ns := forRange 0 (uintSum T.tInputs T.bias) (fun _ ns =>
    push2 ns 0 (Neuron.new Activation.none)) ns
  let ns := forRange 0 T.tHidden (fun i ns =>
    forRange 0 (uintSum (hiddenLayers.getD i 0) T.bias) (fun _ ns =>
      push2 ns (uintSum i 1) (Neuron.new activation)) ns) ns
  let ns := forRange 0 T.tOutputs (fun _ ns =>
    push2 ns (uintSum T.tHidden 2 - 1) (Neuron.new activation)) ns
  -- Create the links
  let ls : List (List Link) := List.replicate (uintSum T.tHidden 1) []
  let ls := forRange 0 (uintSum T.tHidden 1) (fun i ls =>
    forRange 0 (uintSum (st.getD i 0) T.bias) (fun n1 ls =>
      forRange 0 (st.getD (uintSum i 1) 0) (fun n2 ls =>
        push2 ls i (newLink linkInitalRange i n1 n2)) ls) ls) ls
  { m_neurons := ns, m_links := ls, m_structure := st, m_activation := activation }

/-- The template `<4294967295, 0, 1, true>`: `tInputs + tBias` is `0` in `unsigned int`. -/
def edgeTemplate : Template := ⟨4294967295, 0, 1, true⟩

/-- The network the constructor builds for `edgeTemplate`. -/
def edgeNet : NeuralNetwork :=
  NeuralNetwork.newUInt edgeTemplate [] Activation.none (-5, 5) (fun _ _ _ _ => ⟨1⟩)

/-! ## The text `operator<<` prints for a `double`, for the concrete files

A stream in its default state (precision `6`, `floatfield` unset) prints a `double` as
`printf("%g")` does: six significant digits, rounded to nearest, trailing zeros removed, in fixed
notation when the decimal exponent lies in `-4 .. 5` and in scientific notation otherwise. -/

theorem forRange_of_le {σ : Type} (lo hi : Nat) (body : Nat → σ → σ) (s : σ) (h : hi ≤ lo) :
    forRange lo hi body s = s := by
  simp [forRange, Nat.sub_eq_zero_of_le h]

theorem forRange_succ {σ : Type} (lo hi : Nat) (body : Nat → σ → σ) (s : σ) (h : lo ≤ hi) :
    forRange lo (hi + 1) body s = body hi (forRange lo hi body s) := by
  have e : hi + 1 - lo = (hi - lo) + 1 := by omega
  simp only [forRange, e, List.range'_concat, List.foldl_append, List.foldl_cons, List.foldl_nil]
  congr 1
  omega

/-- Invariant rule for `forRange`. -/
theorem forRange_inv {σ : Type} (P : Nat → σ → Prop) (lo hi : Nat) (body : Nat → σ → σ) (s : σ)
    (hle : lo ≤ hi) (h0 : P lo s)
    (hstep : ∀ i s, lo ≤ i → i < hi → P i s → P (i + 1) (body i s)) :
    P hi (forRange lo hi body s) := by
  induction hi with
  | zero =>
    have : lo = 0 := by omega
    subst this
    simpa [forRange] using h0
  | succ n ih =>
    rcases Nat.lt_or_ge n lo with hlt | hge
    · have : lo = n + 1 := by omega
      subst this
      rw [forRange_of_le _ _ _ _ (le_refl _)]
      exact h0
    · rw [forRange_succ _ _ _ _ hge]
      exact hstep n _ hge (Nat.lt_succ_self n)
        (ih hge (fun i s h1 h2 h3 => hstep i s h1 (Nat.lt_succ_of_lt h2) h3))

/-- A quantity every iteration preserves is preserved by the loop. -/
theorem forRange_preserves {σ β : Type} (F : σ → β) (lo hi : Nat) (body : Nat → σ → σ) (s : σ)
    (h : ∀ i s, F (body i s) = F s) : F (forRange lo hi body s) = F s := by
  rcases Nat.le_total lo hi with hle | hle
  · exact forRange_inv (fun _ t => F t = F s) lo hi body s hle rfl
      (fun i t _ _ ht => (h i t).trans ht)
  · rw [forRange_of_le _ _ _ _ hle]

/-- Invariant rule for `forDownTo0`: `P (i + 1)` holds before the iteration for `i`. -/
theorem forDownTo0_inv {σ : Type} (P : Nat → σ → Prop) (n : Nat) (body : Nat → σ → σ) (s : σ)
    (h0 : P (n + 1) s) (hstep : ∀ i s, i ≤ n → P (i + 1) s → P i (body i s)) :
    P 0 (forDownTo0 n body s) := by
  induction n generalizing s with
  | zero => exact hstep 0 s (le_refl _) h0
  | succ n ih =>
    exact ih (body (n + 1) s) (hstep (n + 1) s (le_refl _) h0)
      (fun i t hi ht => hstep i t (Nat.le_succ_of_le hi) ht)

theorem forDownTo0_preserves {σ β : Type} (F : σ → β) (n : Nat) (body : Nat → σ → σ) (s : σ)
    (h : ∀ i s, F (body i s) = F s) : F (forDownTo0 n body s) = F s :=
  forDownTo0_inv (fun _ t => F t = F s) n body s rfl (fun i t _ ht => (h i t).trans ht)

/-- An accumulation loop is a finite sum. -/
theorem forRange_sum (n : Nat) (f : Nat → ℚ) :
    forRange 0 n (fun k sum => sum + f k) 0 = ∑ k ∈ Finset.range n, f k := by
  induction n with
  | zero => simp [forRange]
  | succ n ih => rw [forRange_succ _ _ _ _ (Nat.zero_le n), ih, Finset.sum_range_succ]

/-! ## Nested containers -/

theorem getD_modify {α : Type} (f : α → α) (n : Nat) (l : List α) (m : Nat) (d : α) :
    (List.modify f n l).getD m d = if n = m ∧ m < l.length then f (l.getD m d) else l.getD m d := by
  simp only [List.getD_eq_getElem?_getD, List.getElem?_modify]
  by_cases h : m < l.length
  · simp [List.getElem?_eq_getElem h]
    split <;> simp_all
  · simp [List.getElem?_eq_none (not_lt.mp h), h]

theorem size2_modify2 {α : Type} (xs : List (List α)) (i j : Nat) (f : α → α) (a : Nat) :
    size2 (modify2 xs i j f) a = size2 xs a := by
  unfold size2 modify2
  rw [getD_modify]
  split
  · rename_i h
    rw [List.length_modify]
  · rfl

theorem length_modify2 {α : Type} (xs : List (List α)) (i j : Nat) (f : α → α) :
    (modify2 xs i j f).length = xs.length := by
  simp [modify2]

theorem map_length_modify2 {α : Type} (xs : List (List α)) (i j : Nat) (f : α → α) :
    (modify2 xs i j f).map List.length = xs.map List.length := by
  apply List.ext_getElem?
  intro n
  simp only [modify2, List.getElem?_map, List.getElem?_modify]
  cases xs[n]? with
  | none => rfl
  | some row =>
    simp only [Option.map_some', Option.some.injEq]
    split
    · simp
    · rfl

theorem get2_modify2 {α : Type} [Inhabited α] (xs : List (List α)) (i j : Nat) (f : α → α)
    (a b : Nat) :
    get2 (modify2 xs i j f) a b =
      if a = i ∧ b = j ∧ j < size2 xs i then f (get2 xs i j) else get2 xs a b := by
  unfold get2 modify2 size2
  rw [getD_modify]
  by_cases h1 : i = a ∧ a < xs.length
  · obtain ⟨rfl, h1⟩ := h1
    rw [if_pos ⟨rfl, h1⟩, getD_modify]
    by_cases h2 : j = b ∧ b < (xs.getD i []).length
    · obtain ⟨rfl, h2⟩ := h2
      simp [h2]
    · rw [if_neg h2, if_neg]
      rintro ⟨-, rfl, h3⟩
      exact h2 ⟨rfl, h3⟩
  · rw [if_neg h1, if_neg]
    rintro ⟨rfl, rfl, h3⟩
    apply h1
    refine ⟨rfl, ?_⟩
    by_contra hc
    rw [List.getD_eq_default _ _ (not_lt.mp hc)] at h3
    simp at h3

theorem size2_map_map {α β : Type} (g : α → β) (xs : List (List α)) (i : Nat) :
    size2 (xs.map (List.map g)) i = size2 xs i := by
  unfold size2
  simp only [List.getD_eq_getElem?_getD, List.getElem?_map]
  cases xs[i]? <;> simp

theorem size2_eq_getD_map_length {α : Type} (xs : List (List α)) (i : Nat) :
    size2 xs i = (xs.map List.length).getD i 0 := by
  unfold size2
  simp only [List.getD_eq_getElem?_getD, List.getElem?_map]
  cases xs[i]? <;> simp

theorem get2_map_map {α β : Type} [Inhabited α] [Inhabited β] (g : α → β)
    (hg : g default = default) (xs : List (List α)) (i j : Nat) :
    get2 (xs.map (List.map g)) i j = g (get2 xs i j) := by
  unfold get2
  simp only [List.getD_eq_getElem?_getD, List.getElem?_map]
  cases xs[i]? with
  | none => simp [hg]
  | some row =>
    simp only [Option.map_some', Option.getD_some, List.getElem?_map]
    cases row[j]? <;> simp [hg]

theorem map_modify_of_invariant {α β : Type} (g : α → β) (row : List α) (j : Nat) (f : α → α)
    (hf : ∀ x, g (f x) = g x) : (List.modify f j row).map g = row.map g := by
  apply List.ext_getElem?
  intro m
  simp only [List.getElem?_map, List.getElem?_modify]
  cases row[m]? with
  | none => rfl
  | some x =>
    by_cases h : j = m
    · simp [h, hf]
    · simp [h]

theorem map_map_modify2 {α β : Type} (g : α → β) (xs : List (List α)) (i j : Nat) (f : α → α)
    (hf : ∀ x, g (f x) = g x) :
    (modify2 xs i j f).map (List.map g) = xs.map (List.map g) := by
  apply List.ext_getElem?
  intro n
  simp only [modify2, List.getElem?_map, List.getElem?_modify]
  cases xs[n]? with
  | none => rfl
  | some row =>
    by_cases h : i = n
    · simp [h, map_modify_of_invariant g row j f hf]
    · simp [h]

/-! ## Stores into a network -/

namespace NeuralNetwork

theorem neuron_modifyNeuron (net : NeuralNetwork) (i j : Nat) (f : Neuron → Neuron) (a b : Nat) :
    (net.modifyNeuron i j f).neuron a b =
      if a = i ∧ b = j ∧ j < size2 net.m_neurons i then f (net.neuron i j) else net.neuron a b :=
  get2_modify2 net.m_neurons i j f a b

theorem link_modifyLink (net : NeuralNetwork) (i j : Nat) (f : Link → Link) (a b : Nat) :
    (net.modifyLink i j f).link a b =
      if a = i ∧ b = j ∧ j < size2 net.m_links i then f (net.link i j) else net.link a b :=
  get2_modify2 net.m_links i j f a b

@[simp] theorem m_links_modifyNeuron (net : NeuralNetwork) (i j : Nat) (f : Neuron → Neuron) :
    (net.modifyNeuron i j f).m_links = net.m_links := rfl

@[simp] theorem link_modifyNeuron (net : NeuralNetwork) (i j : Nat) (f : Neuron → Neuron)
    (a b : Nat) : (net.modifyNeuron i j f).link a b = net.link a b := rfl

@[simp] theorem width_modifyNeuron (net : NeuralNetwork) (i j : Nat) (f : Neuron → Neuron)
    (a : Nat) : (net.modifyNeuron i j f).width a = net.width a := rfl

@[simp] theorem m_neurons_modifyLink (net : NeuralNetwork) (i j : Nat) (f : Link → Link) :
    (net.modifyLink i j f).m_neurons = net.m_neurons := rfl

@[simp] theorem neuron_modifyLink (net : NeuralNetwork) (i j : Nat) (f : Link → Link)
    (a b : Nat) : (net.modifyLink i j f).neuron a b = net.neuron a b := rfl

@[simp] theorem width_modifyLink (net : NeuralNetwork) (i j : Nat) (f : Link → Link)
    (a : Nat) : (net.modifyLink i j f).width a = net.width a := rfl

theorem frame_modifyNeuron (net : NeuralNetwork) (i j : Nat) (f : Neuron → Neuron)
    (hf : ∀ x, (f x).activation = x.activation) :
    (net.modifyNeuron i j f).frame = net.frame := by
  simp only [frame, modifyNeuron, map_map_modify2 Neuron.activation net.m_neurons i j f hf]

@[simp] theorem frame_setValue (net : NeuralNetwork) (i j : Nat) (g : Neuron → ℚ) :
    (net.modifyNeuron i j (fun x => { x with value := g x })).frame = net.frame :=
  frame_modifyNeuron net i j _ (fun _ => rfl)

@[simp] theorem frame_setRaw (net : NeuralNetwork) (i j : Nat) (g : Neuron → ℚ) :
    (net.modifyNeuron i j (fun x => { x with raw := g x })).frame = net.frame :=
  frame_modifyNeuron net i j _ (fun _ => rfl)

@[simp] theorem frame_setError (net : NeuralNetwork) (i j : Nat) (g : Neuron → ℚ) :
    (net.modifyNeuron i j (fun x => { x with error := g x })).frame = net.frame :=
  frame_modifyNeuron net i j _ (fun _ => rfl)

theorem frame_modifyLink (net : NeuralNetwork) (i j : Nat) (f : Link → Link) :
    (net.modifyLink i j f).frame = net.frame := by
  simp only [frame, modifyLink, map_length_modify2]

theorem m_structure_of_frame {net net' : NeuralNetwork} (h : net'.frame = net.frame) :
    net'.m_structure = net.m_structure :=
  congrArg Prod.fst h

theorem width_of_frame {net net' : NeuralNetwork} (h : net'.frame = net.frame) (i : Nat) :
    net'.width i = net.width i := by
  unfold width
  rw [m_structure_of_frame h]

theorem m_activation_of_frame {net net' : NeuralNetwork} (h : net'.frame = net.frame) :
    net'.m_activation = net.m_activation :=
  congrArg (fun p => p.2.1) h

theorem neurons_size_of_frame {net net' : NeuralNetwork} (h : net'.frame = net.frame) (i : Nat) :
    size2 net'.m_neurons i = size2 net.m_neurons i := by
  have e : net'.m_neurons.map (List.map Neuron.activation)
      = net.m_neurons.map (List.map Neuron.activation) := congrArg (fun p => p.2.2.1) h
  rw [← size2_map_map Neuron.activation net'.m_neurons, e, size2_map_map]

theorem neurons_length_of_frame {net net' : NeuralNetwork} (h : net'.frame = net.frame) :
    net'.m_neurons.length = net.m_neurons.length := by
  have e : net'.m_neurons.map (List.map Neuron.activation)
      = net.m_neurons.map (List.map Neuron.activation) := congrArg (fun p => p.2.2.1) h
  simpa using congrArg List.length e

theorem activation_of_frame {net net' : NeuralNetwork} (h : net'.frame = net.frame) (i j : Nat) :
    (net'.neuron i j).activation = (net.neuron i j).activation := by
  have e : net'.m_neurons.map (List.map Neuron.activation)
      = net.m_neurons.map (List.map Neuron.activation) := congrArg (fun p => p.2.2.1) h
  unfold neuron
  rw [← get2_map_map Neuron.activation rfl net'.m_neurons, e, get2_map_map Neuron.activation rfl]

theorem links_size_of_frame {net net' : NeuralNetwork} (h : net'.frame = net.frame) (i : Nat) :
    size2 net'.m_links i = size2 net.m_links i := by
  have e : net'.m_links.map List.length = net.m_links.map List.length :=
    congrArg (fun p => p.2.2.2) h
  rw [size2_eq_getD_map_length, e, ← size2_eq_getD_map_length]

theorem links_length_of_frame {net net' : NeuralNetwork} (h : net'.frame = net.frame) :
    net'.m_links.length = net.m_links.length := by
  have e : net'.m_links.map List.length = net.m_links.map List.length :=
    congrArg (fun p => p.2.2.2) h
  simpa using congrArg List.length e

end NeuralNetwork

/-- Well-formedness only depends on the frame of the network. -/
theorem WF.of_frame {T : Template} {net net' : NeuralNetwork} (h : net'.frame = net.frame)
    (hw : WF T net) : WF T net' where
  structure_length := by rw [NeuralNetwork.m_structure_of_frame h]; exact hw.structure_length
  width_inputs := by rw [NeuralNetwork.width_of_frame h]; exact hw.width_inputs
  width_outputs := by rw [NeuralNetwork.width_of_frame h]; exact hw.width_outputs
  neurons_length := by rw [NeuralNetwork.neurons_length_of_frame h]; exact hw.neurons_length
  neurons_size := fun i hi => by
    rw [NeuralNetwork.neurons_size_of_frame h, NeuralNetwork.width_of_frame h]
    exact hw.neurons_size i hi
  outputs_size := by rw [NeuralNetwork.neurons_size_of_frame h]; exact hw.outputs_size
  links_length := by rw [NeuralNetwork.links_length_of_frame h]; exact hw.links_length
  links_size := fun i hi => by
    rw [NeuralNetwork.links_size_of_frame h, NeuralNetwork.width_of_frame h,
      NeuralNetwork.width_of_frame h]
    exact hw.links_size i hi
  activation := fun i j hi hj => by
    rw [NeuralNetwork.activation_of_frame h, NeuralNetwork.m_activation_of_frame h]
    rw [NeuralNetwork.neurons_size_of_frame h] at hj
    exact hw.activation i j hi hj

/-! ## The forward pass -/

theorem Calculate_fst (T : Template) (net : NeuralNetwork) (inputs : List ℚ) :
    (Calculate T net inputs).1 = forwardLayers T (setInputs T net inputs) := rfl

theorem Calculate_snd (T : Template) (net : NeuralNetwork) (inputs : List ℚ) :
    (Calculate T net inputs).2 = forRange 0 T.tOutputs (fun i out =>
      out.set i ((Calculate T net inputs).1.neuron (T.tHidden + 1) i).value)
      (List.replicate T.tOutputs 0) := rfl

/-- Filling an array slot by slot yields the array of the stored values. -/
theorem forRange_fill (n : Nat) (g : Nat → ℚ) :
    forRange 0 n (fun i out => out.set i (g i)) (List.replicate n 0) = (List.range n).map g := by
  have key : ∀ m, m ≤ n →
      forRange 0 m (fun i (out : List ℚ) => out.set i (g i)) (List.replicate n 0)
        = (List.range m).map g ++ List.replicate (n - m) 0 := by
    intro m
    induction m with
    | zero => intro _; simp [forRange]
    | succ m ih =>
      intro hm
      rw [forRange_succ _ _ _ _ (Nat.zero_le m), ih (by omega)]
      have e : n - m = (n - (m + 1)) + 1 := by omega
      rw [e, List.replicate_succ, List.range_succ, List.map_append, List.append_assoc]
      have hl : ((List.range m).map g).length = m := by simp
      rw [List.set_append_right _ _ (by omega), hl]
      simp
  simpa using key n (le_refl n)

theorem setInputs_frame (T : Template) (net : NeuralNetwork) (inputs : List ℚ) :
    (setInputs T net inputs).frame = net.frame :=
  forRange_preserves NeuralNetwork.frame _ _ _ _ (fun i s => by simp)

theorem setInputs_links (T : Template) (net : NeuralNetwork) (inputs : List ℚ) :
    (setInputs T net inputs).m_links = net.m_links :=
  forRange_preserves NeuralNetwork.m_links _ _ _ _ (fun _ _ => rfl)

theorem setInputs_neuron (T : Template) (net : NeuralNetwork) (inputs : List ℚ) (a b : Nat) :
    (setInputs T net inputs).neuron a b =
      if a = 0 ∧ b < T.tInputs ∧ b < size2 net.m_neurons 0 then
        { net.neuron 0 b with value := inputs.getD b 0 }
      else net.neuron a b := by
  have key := forRange_inv
    (fun m s => s.frame = net.frame ∧ ∀ a b, s.neuron a b =
      if a = 0 ∧ b < m ∧ b < size2 net.m_neurons 0 then
        { net.neuron 0 b with value := inputs.getD b 0 }
      else net.neuron a b) 0 T.tInputs
    (fun i net => net.modifyNeuron 0 i (fun x => { x with value := inputs.getD i 0 })) net
    (Nat.zero_le _) ⟨rfl, fun a b => by simp⟩
    (by
      rintro i s - - ⟨hf, hs⟩
      refine ⟨?_, ?_⟩
      · simpa using hf
      intro a b
      show (s.modifyNeuron 0 i _).neuron a b = _
      rw [NeuralNetwork.neuron_modifyNeuron, NeuralNetwork.neurons_size_of_frame hf, hs a b,
        hs 0 i]
      by_cases ha : a = 0
      · subst ha
        by_cases hb : b = i
        · subst hb
          by_cases hsz : b < size2 net.m_neurons 0
          · simp [hsz]
          · simp [hsz]
        · have : b < i + 1 ↔ b < i := by omega
          simp [hb, this]
      · simp [ha])
  exact key.2 a b

theorem weightedSum_congr (T : Template) {net net' : NeuralNetwork} (i j : Nat)
    (hl : net'.m_links = net.m_links) (hs : net'.m_structure = net.m_structure)
    (hv : ∀ k, (net'.neuron (i - 1) k).value = (net.neuron (i - 1) k).value) :
    net'.weightedSum T i j = net.weightedSum T i j := by
  unfold NeuralNetwork.weightedSum NeuralNetwork.width NeuralNetwork.link
  rw [hl, hs]
  exact Finset.sum_congr rfl (fun k _ => by rw [hv k])

theorem forwardNeuron_eq (T : Template) (i j : Nat) (net : NeuralNetwork) :
    forwardNeuron T i j net =
      (net.modifyNeuron i j (fun x =>
        { x with value := x.activation.funct (net.weightedSum T i j) })).modifyNeuron i j
        (fun x => { x with raw := net.weightedSum T i j }) := by
  unfold forwardNeuron NeuralNetwork.weightedSum
  simp only [forRange_sum]

theorem forwardNeuron_frame (T : Template) (i j : Nat) (net : NeuralNetwork) :
    (forwardNeuron T i j net).frame = net.frame := by
  rw [forwardNeuron_eq]
  simp

theorem forwardNeuron_links (T : Template) (i j : Nat) (net : NeuralNetwork) :
    (forwardNeuron T i j net).m_links = net.m_links := rfl

theorem forwardNeuron_neuron (T : Template) (i j : Nat) (net : NeuralNetwork) (a b : Nat) :
    (forwardNeuron T i j net).neuron a b =
      if a = i ∧ b = j ∧ j < size2 net.m_neurons i then
        { net.neuron i j with
          value := (net.neuron i j).activation.funct (net.weightedSum T i j),
          raw := net.weightedSum T i j }
      else net.neuron a b := by
  rw [forwardNeuron_eq, NeuralNetwork.neuron_modifyNeuron, NeuralNetwork.neuron_modifyNeuron,
    NeuralNetwork.neuron_modifyNeuron]
  simp only [NeuralNetwork.modifyNeuron, size2_modify2]
  by_cases h : a = i ∧ b = j ∧ j < size2 net.m_neurons i
  · have h' : j < size2 net.m_neurons i := h.2.2
    simp [h, h']
  · simp [h]

theorem forwardLayer_spec (T : Template) (i : Nat) (hi : 1 ≤ i) (net : NeuralNetwork) :
    (forwardLayer T i net).frame = net.frame ∧ (forwardLayer T i net).m_links = net.m_links ∧
    ∀ a b, (forwardLayer T i net).neuron a b =
      if a = i ∧ b < net.width i ∧ b < size2 net.m_neurons i then
        { net.neuron i b with
          value := (net.neuron i b).activation.funct (net.weightedSum T i b),
          raw := net.weightedSum T i b }
      else net.neuron a b := by
  refine forRange_inv
    (fun m s => s.frame = net.frame ∧ s.m_links = net.m_links ∧ ∀ a b, s.neuron a b =
      if a = i ∧ b < m ∧ b < size2 net.m_neurons i then
        { net.neuron i b with
          value := (net.neuron i b).activation.funct (net.weightedSum T i b),
          raw := net.weightedSum T i b }
      else net.neuron a b) 0 (net.width i) (forwardNeuron T i) net
    (Nat.zero_le _) ⟨rfl, rfl, fun a b => by simp⟩ ?_
  rintro m s - - ⟨hf, hl, hs⟩
  refine ⟨(forwardNeuron_frame T i m s).trans hf, hl, ?_⟩
  intro a b
  have hsum : s.weightedSum T i m = net.weightedSum T i m :=
    weightedSum_congr T i m hl (NeuralNetwork.m_structure_of_frame hf)
      (fun k => by rw [hs (i - 1) k, if_neg (by omega)])
  rw [forwardNeuron_neuron, NeuralNetwork.neurons_size_of_frame hf, hsum, hs a b, hs i m]
  by_cases ha : a = i
  · subst ha
    by_cases hb : b = m
    · subst hb
      by_cases hsz : b < size2 net.m_neurons a
      · simp [hsz]
      · simp [hsz]
    · have : b < m + 1 ↔ b < m := by omega
      simp [hb, this]
  · simp [ha]

/-- In a well-formed network every layer `a` in `1..tHidden+1` holds at least `width a`
neurons. -/
theorem WF.lt_size {T : Template} {net : NeuralNetwork} (hw : WF T net) {a b : Nat}
    (ha : a ≤ T.tHidden + 1) (hb : b < net.width a) : b < size2 net.m_neurons a := by
  rcases Nat.lt_or_ge a (T.tHidden + 1) with h | h
  · rw [hw.neurons_size a (by omega)]
    omega
  · have : a = T.tHidden + 1 := by omega
    subst this
    rw [hw.outputs_size, ← hw.width_outputs]
    exact hb

theorem forwardLayers_spec (T : Template) (net : NeuralNetwork) (hw : WF T net) :
    (forwardLayers T net).frame = net.frame ∧ (forwardLayers T net).m_links = net.m_links ∧
    (∀ a b, (a = 0 ∨ T.tHidden + 2 ≤ a ∨ net.width a ≤ b) →
      (forwardLayers T net).neuron a b = net.neuron a b) ∧
    (∀ a b, ((forwardLayers T net).neuron a b).error = (net.neuron a b).error) ∧
    (∀ a b, 1 ≤ a → a < T.tHidden + 2 → b < net.width a →
      ((forwardLayers T net).neuron a b).raw = (forwardLayers T net).weightedSum T a b ∧
      ((forwardLayers T net).neuron a b).value =
        net.m_activation.funct ((forwardLayers T net).weightedSum T a b)) := by
  refine forRange_inv
    (fun m s => s.frame = net.frame ∧ s.m_links = net.m_links ∧
      (∀ a b, (a = 0 ∨ m ≤ a ∨ net.width a ≤ b) → s.neuron a b = net.neuron a b) ∧
      (∀ a b, (s.neuron a b).error = (net.neuron a b).error) ∧
      (∀ a b, 1 ≤ a → a < m → b < net.width a →
        (s.neuron a b).raw = s.weightedSum T a b ∧
        (s.neuron a b).value = net.m_activation.funct (s.weightedSum T a b)))
    1 (T.tHidden + 2) (forwardLayer T) net (by omega)
    ⟨rfl, rfl, fun _ _ _ => rfl, fun _ _ => rfl, fun a b h1 h2 => by omega⟩ ?_
  rintro m s hm1 hm2 ⟨hf, hl, hsame, herr, hval⟩
  obtain ⟨hf', hl', hn'⟩ := forwardLayer_spec T m hm1 s
  have hwidth : ∀ a, s.width a = net.width a := NeuralNetwork.width_of_frame hf
  have hsize : ∀ a, size2 s.m_neurons a = size2 net.m_neurons a :=
    NeuralNetwork.neurons_size_of_frame hf
  have hsum : ∀ a b, a ≠ m + 1 →
      (forwardLayer T m s).weightedSum T a b = s.weightedSum T a b := by
    intro a b ha
    refine weightedSum_congr T a b hl' (NeuralNetwork.m_structure_of_frame hf') (fun k => ?_)
    rw [hn' (a - 1) k, if_neg (by omega)]
  refine ⟨hf'.trans hf, hl'.trans hl, ?_, ?_, ?_⟩
  · intro a b h
    rw [hn' a b, if_neg, hsame a b (by omega)]
    rw [hwidth]
    rintro ⟨rfl, h1, -⟩
    omega
  · intro a b
    rw [hn' a b]
    split
    · rename_i h
      rw [← herr a b, h.1]
    · exact herr a b
  · intro a b ha1 ha2 hb
    rw [hsum a b (by omega), hn' a b]
    rcases Nat.lt_or_ge a m with hlt | hge
    · rw [if_neg (by omega)]
      exact hval a b ha1 hlt hb
    · have ham : a = m := by omega
      subst ham
      have hsz : b < size2 s.m_neurons a := by
        rw [hsize]
        exact hw.lt_size (by omega) hb
      have hact : (s.neuron a b).activation = net.m_activation := by
        rw [NeuralNetwork.activation_of_frame hf]
        exact hw.activation a b ha1 (hw.lt_size (by omega) hb)
      rw [if_pos ⟨rfl, by rw [hwidth]; exact hb, hsz⟩]
      simp [hact]

/-! ## The constructor -/

theorem new_m_neurons (T : Template) (hiddenLayers : List Nat) (activation : Activation)
    (range : ℚ × ℚ) (newLink : ℚ × ℚ → Nat → Nat → Nat → Link) :
    (NeuralNetwork.new T hiddenLayers activation range newLink).m_neurons
      = newNeurons T hiddenLayers activation := rfl

theorem new_m_links (T : Template) (hiddenLayers : List Nat) (activation : Activation)
    (range : ℚ × ℚ) (newLink : ℚ × ℚ → Nat → Nat → Nat → Link) :
    (NeuralNetwork.new T hiddenLayers activation range newLink).m_links
      = newLinks T (newStructure T hiddenLayers) range newLink := rfl

theorem getD_set {α : Type} (l : List α) (i : Nat) (a : α) (j : Nat) (d : α) :
    (l.set i a).getD j d = if i = j ∧ j < l.length then a else l.getD j d := by
  simp only [List.getD_eq_getElem?_getD, List.getElem?_set]
  by_cases h : i = j
  · subst h
    by_cases h2 : i < l.length
    · simp [h2]
    · simp [h2, List.getElem?_eq_none (not_lt.mp h2)]
  · simp [h]

theorem newStructure_spec (T : Template) (hiddenLayers : List Nat) :
    (newStructure T hiddenLayers).length = T.tHidden + 2 ∧
    (newStructure T hiddenLayers).getD 0 0 = T.tInputs ∧
    (∀ i, i < T.tHidden → (newStructure T hiddenLayers).getD (i + 1) 0 = hiddenLayers.getD i 0) ∧
    (newStructure T hiddenLayers).getD (T.tHidden + 1) 0 = T.tOutputs := by
  have key := forRange_inv
    (fun m (st : List Nat) => st.length = T.tHidden + 2 ∧ st.getD 0 0 = T.tInputs ∧
      ∀ i, i < m → st.getD (i + 1) 0 = hiddenLayers.getD i 0) 0 T.tHidden
    (fun i st => st.set (i + 1) (hiddenLayers.getD i 0))
    ((List.replicate (T.tHidden + 2) 0).set 0 T.tInputs) (Nat.zero_le _)
    ⟨by simp, by simp [getD_set], fun i hi => by omega⟩
    (by
      rintro m st - hm ⟨h1, h2, h3⟩
      refine ⟨by simpa using h1, ?_, ?_⟩
      · show (st.set (m + 1) _).getD 0 0 = _
        rw [getD_set, if_neg (by omega)]
        exact h2
      · intro i hi
        show (st.set (m + 1) _).getD (i + 1) 0 = _
        rw [getD_set]
        by_cases hmi : i = m
        · subst hmi
          rw [if_pos ⟨rfl, by omega⟩]
        · rw [if_neg (by omega)]
          exact h3 i (by omega))
  obtain ⟨h1, h2, h3⟩ := key
  unfold newStructure
  refine ⟨by simpa using h1, ?_, ?_, ?_⟩
  · rw [getD_set, if_neg (by omega)]
    exact h2
  · intro i hi
    rw [getD_set, if_neg (by omega)]
    exact h3 i hi
  · rw [getD_set, if_pos ⟨rfl, by omega⟩]

theorem length_push2 {α : Type} (xs : List (List α)) (i : Nat) (a : α) :
    (push2 xs i a).length = xs.length := by
  simp [push2]

theorem size2_push2 {α : Type} (xs : List (List α)) (i : Nat) (a : α) (k : Nat) :
    size2 (push2 xs i a) k = if i = k ∧ k < xs.length then size2 xs k + 1 else size2 xs k := by
  unfold size2 push2
  rw [getD_modify]
  split <;> simp

/-- Pushing `n` elements onto row `i` grows that row by `n` and no other. -/
theorem push_loop_spec {α : Type} (xs : List (List α)) (i n : Nat) (g : Nat → α) :
    (forRange 0 n (fun j xs => push2 xs i (g j)) xs).length = xs.length ∧
    ∀ k, size2 (forRange 0 n (fun j xs => push2 xs i (g j)) xs) k =
      if i = k ∧ k < xs.length then size2 xs k + n else size2 xs k := by
  refine forRange_inv
    (fun m (ys : List (List α)) => ys.length = xs.length ∧
      ∀ k, size2 ys k = if i = k ∧ k < xs.length then size2 xs k + m else size2 xs k)
    0 n (fun j xs => push2 xs i (g j)) xs (Nat.zero_le _) ⟨rfl, fun k => by simp⟩ ?_
  rintro m ys - - ⟨h1, h2⟩
  refine ⟨(length_push2 ys i _).trans h1, fun k => ?_⟩
  show size2 (push2 ys i _) k = _
  rw [size2_push2, h1, h2 k]
  split <;> omega

/-- Pushing `n` blocks of `w` elements onto row `i` grows that row by `n * w`. -/
theorem push_block_spec {α : Type} (xs : List (List α)) (i n w : Nat) (g : Nat → Nat → α) :
    (forRange 0 n (fun n1 ls => forRange 0 w (fun n2 ls => push2 ls i (g n1 n2)) ls) xs).length
      = xs.length ∧
    ∀ k, size2 (forRange 0 n (fun n1 ls =>
        forRange 0 w (fun n2 ls => push2 ls i (g n1 n2)) ls) xs) k =
      if i = k ∧ k < xs.length then size2 xs k + n * w else size2 xs k := by
  refine forRange_inv
    (fun m (ys : List (List α)) => ys.length = xs.length ∧
      ∀ k, size2 ys k = if i = k ∧ k < xs.length then size2 xs k + m * w else size2 xs k)
    0 n (fun n1 ls => forRange 0 w (fun n2 ls => push2 ls i (g n1 n2)) ls) xs (Nat.zero_le _)
    ⟨rfl, fun k => by simp⟩ ?_
  rintro m ys - - ⟨h1, h2⟩
  obtain ⟨h3, h4⟩ := push_loop_spec ys i w (g m)
  refine ⟨h3.trans h1, fun k => ?_⟩
  show size2 (forRange 0 w (fun n2 ls => push2 ls i (g m n2)) ys) k = _
  rw [h4 k, h1, h2 k, Nat.succ_mul]
  split <;> omega

theorem size2_replicate_nil {α : Type} (n k : Nat) :
    size2 (List.replicate n ([] : List α)) k = 0 := by
  unfold size2
  simp only [List.getD_eq_getElem?_getD, List.getElem?_replicate]
  split <;> simp

theorem newLinks_spec (T : Template) (st : List Nat) (range : ℚ × ℚ)
    (newLink : ℚ × ℚ → Nat → Nat → Nat → Link) :
    (newLinks T st range newLink).length = T.tHidden + 1 ∧
    ∀ i, i ≤ T.tHidden →
      size2 (newLinks T st range newLink) i = (st.getD i 0 + T.bias) * st.getD (i + 1) 0 := by
  have key := forRange_inv
    (fun m (ls : List (List Link)) => ls.length = T.tHidden + 1 ∧
      ∀ k, size2 ls k = if k < m then (st.getD k 0 + T.bias) * st.getD (k + 1) 0 else 0)
    0 (T.tHidden + 1) (fun i ls =>
      forRange 0 (st.getD i 0 + T.bias) (fun n1 ls =>
        forRange 0 (st.getD (i + 1) 0) (fun n2 ls =>
          push2 ls i (newLink range i n1 n2)) ls) ls) (List.replicate (T.tHidden + 1) [])
    (Nat.zero_le _) ⟨by simp, fun k => by simp [size2_replicate_nil]⟩
    (by
      rintro m ls - hm ⟨h1, h2⟩
      obtain ⟨h3, h4⟩ := push_block_spec ls m (st.getD m 0 + T.bias) (st.getD (m + 1) 0)
        (newLink range m)
      refine ⟨h3.trans h1, fun k => ?_⟩
      show size2 (forRange 0 (st.getD m 0 + T.bias) (fun n1 ls =>
        forRange 0 (st.getD (m + 1) 0) (fun n2 ls =>
          push2 ls m (newLink range m n1 n2)) ls) ls) k = _
      rw [h4 k, h1, h2 k]
      by_cases hk : m = k
      · subst hk
        rw [if_pos ⟨rfl, hm⟩, if_neg (Nat.lt_irrefl _), if_pos (Nat.lt_succ_self _)]
        omega
      · rw [if_neg (fun h => hk h.1)]
        by_cases hk2 : k < m
        · rw [if_pos hk2, if_pos (by omega)]
        · rw [if_neg hk2, if_neg (by omega)])
  obtain ⟨k1, k2⟩ := key
  refine ⟨k1, fun i hi => ?_⟩
  show size2 (forRange 0 (T.tHidden + 1) _ _) i = _
  rw [k2 i, if_pos (by omega)]

theorem rowsActivated_push2 (act : Activation) (ns : List (List Neuron)) (i : Nat) (y : Neuron)
    (h : RowsActivated act ns) (hy : 1 ≤ i → y.activation = act) :
    RowsActivated act (push2 ns i y) := by
  intro k hk x hx
  unfold push2 at hx
  rw [getD_modify] at hx
  split at hx
  · rename_i hik
    rcases List.mem_append.mp hx with hx | hx
    · exact h k hk x hx
    · rw [List.mem_singleton.mp hx]
      exact hy (by omega)
  · exact h k hk x hx

theorem rowsActivated_push_loop (act : Activation) (ns : List (List Neuron)) (i n : Nat)
    (y : Neuron) (h : RowsActivated act ns) (hy : 1 ≤ i → y.activation = act) :
    RowsActivated act (forRange 0 n (fun _ ns => push2 ns i y) ns) :=
  forRange_inv (fun _ ys => RowsActivated act ys) 0 n _ ns (Nat.zero_le _) h
    (fun _ ys _ _ hys => rowsActivated_push2 act ys i y hys hy)

theorem newNeurons_spec (T : Template) (hiddenLayers : List Nat) (activation : Activation) :
    (newNeurons T hiddenLayers activation).length = T.tHidden + 2 ∧
    size2 (newNeurons T hiddenLayers activation) 0 = T.tInputs + T.bias ∧
    (∀ i, i < T.tHidden →
      size2 (newNeurons T hiddenLayers activation) (i + 1) = hiddenLayers.getD i 0 + T.bias) ∧
    size2 (newNeurons T hiddenLayers activation) (T.tHidden + 1) = T.tOutputs ∧
    RowsActivated activation (newNeurons T hiddenLayers activation) := by
  -- inputs
  obtain ⟨a1, a2⟩ := push_loop_spec (List.replicate (T.tHidden + 2) ([] : List Neuron)) 0
    (T.tInputs + T.bias) (fun _ => Neuron.new Activation.none)
  have a3 : RowsActivated activation (forRange 0 (T.tInputs + T.bias)
      (fun _ ns => push2 ns 0 (Neuron.new Activation.none))
      (List.replicate (T.tHidden + 2) ([] : List Neuron))) := by
    apply rowsActivated_push_loop
    · intro k _ x hx
      simp only [List.getD_eq_getElem?_getD, List.getElem?_replicate] at hx
      split at hx <;> simp at hx
    · intro h
      omega
  -- hidden
  have key := forRange_inv
    (fun m (ns : List (List Neuron)) => ns.length = T.tHidden + 2 ∧
      (∀ k, size2 ns k = if k = 0 then T.tInputs + T.bias
        else if k ≤ m then hiddenLayers.getD (k - 1) 0 + T.bias else 0) ∧
      RowsActivated activation ns) 0 T.tHidden
    (fun i ns => forRange 0 (hiddenLayers.getD i 0 + T.bias) (fun _ ns =>
      push2 ns (i + 1) (Neuron.new activation)) ns)
    (forRange 0 (T.tInputs + T.bias) (fun _ ns => push2 ns 0 (Neuron.new Activation.none))
      (List.replicate (T.tHidden + 2) ([] : List Neuron)))
    (Nat.zero_le _)
    ⟨by simpa using a1, fun k => by
      rw [a2 k]
      simp only [size2_replicate_nil, List.length_replicate]
      by_cases hk : k = 0
      · subst hk
        simp
      · rw [if_neg (fun h => hk h.1.symm), if_neg hk, if_neg (by omega)], a3⟩
    (by
      rintro m ns - hm ⟨h1, h2, h3⟩
      obtain ⟨b1, b2⟩ := push_loop_spec ns (m + 1) (hiddenLayers.getD m 0 + T.bias)
        (fun _ => Neuron.new activation)
      refine ⟨b1.trans h1, fun k => ?_, rowsActivated_push_loop activation ns (m + 1) _ _ h3
        (fun _ => rfl)⟩
      show size2 (forRange 0 (hiddenLayers.getD m 0 + T.bias)
        (fun _ ns => push2 ns (m + 1) (Neuron.new activation)) ns) k = _
      rw [b2 k, h1, h2 k]
      by_cases hk0 : k = 0
      · subst hk0
        simp
      · rw [if_neg hk0, if_neg hk0]
        by_cases hk1 : m + 1 = k
        · subst hk1
          rw [if_pos ⟨rfl, by omega⟩, if_neg (by omega), if_pos (le_refl _)]
          simp
        · rw [if_neg (fun h => hk1 h.1)]
          by_cases hk2 : k ≤ m
          · rw [if_pos hk2, if_pos (by omega)]
          · rw [if_neg hk2, if_neg (by omega)])
  obtain ⟨h1, h2, h3⟩ := key
  -- outputs
  obtain ⟨c1, c2⟩ := push_loop_spec
    (forRange 0 T.tHidden (fun i ns => forRange 0 (hiddenLayers.getD i 0 + T.bias) (fun _ ns =>
      push2 ns (i + 1) (Neuron.new activation)) ns)
      (forRange 0 (T.tInputs + T.bias) (fun _ ns => push2 ns 0 (Neuron.new Activation.none))
        (List.replicate (T.tHidden + 2) ([] : List Neuron))))
    (T.tHidden + 1) T.tOutputs (fun _ => Neuron.new activation)
  have hsize : ∀ k, size2 (newNeurons T hiddenLayers activation) k =
      if k = 0 then T.tInputs + T.bias
      else if k ≤ T.tHidden then hiddenLayers.getD (k - 1) 0 + T.bias
      else if k = T.tHidden + 1 then T.tOutputs else 0 := by
    intro k
    show size2 (forRange 0 T.tOutputs _ _) k = _
    rw [c2 k, h1, h2 k]
    by_cases hk0 : k = 0
    · subst hk0
      simp
    · rw [if_neg hk0, if_neg hk0]
      by_cases hk1 : k ≤ T.tHidden
      · rw [if_pos hk1, if_pos hk1, if_neg (by omega)]
      · rw [if_neg hk1, if_neg hk1]
        by_cases hk2 : k = T.tHidden + 1
        · subst hk2
          simp
        · rw [if_neg hk2, if_neg (fun h => hk2 h.1.symm)]
  refine ⟨c1.trans h1, ?_, ?_, ?_, ?_⟩
  · rw [hsize 0, if_pos rfl]
  · intro i hi
    rw [hsize (i + 1), if_neg (by omega), if_pos (by omega)]
    simp
  · rw [hsize (T.tHidden + 1), if_neg (by omega), if_neg (by omega), if_pos rfl]
  · exact rowsActivated_push_loop activation _ (T.tHidden + 1) T.tOutputs _ h3 (fun _ => rfl)

theorem get2_mem {α : Type} [Inhabited α] (xs : List (List α)) (i j : Nat)
    (h : j < size2 xs i) : get2 xs i j ∈ xs.getD i [] := by
  unfold get2
  unfold size2 at h
  rw [List.getD_eq_getElem _ _ h]
  exact List.getElem_mem h

/-- The constructor establishes the representation invariant. -/
theorem new_WF (T : Template) (hiddenLayers : List Nat) (activation : Activation)
    (range : ℚ × ℚ) (newLink : ℚ × ℚ → Nat → Nat → Nat → Link) :
    WF T (NeuralNetwork.new T hiddenLayers activation range newLink) := by
  obtain ⟨s1, s2, s3, s4⟩ := newStructure_spec T hiddenLayers
  obtain ⟨n1, n2, n3, n4, n5⟩ := newNeurons_spec T hiddenLayers activation
  obtain ⟨l1, l2⟩ := newLinks_spec T (newStructure T hiddenLayers) range newLink
  refine ⟨s1, s2, s4, n1, ?_, n4, l1, l2, ?_⟩
  · intro i hi
    show size2 (newNeurons T hiddenLayers activation) i
      = (newStructure T hiddenLayers).getD i 0 + T.bias
    rcases Nat.eq_zero_or_pos i with h0 | h0
    · subst h0
      rw [n2, s2]
    · obtain ⟨k, rfl⟩ : ∃ k, i = k + 1 := ⟨i - 1, by omega⟩
      rw [n3 k (by omega), s3 k (by omega)]
  · intro i j hi hj
    exact n5 i hi _ (get2_mem _ i j hj)

theorem forwardLayer_frame (T : Template) (i : Nat) (net : NeuralNetwork) :
    (forwardLayer T i net).frame = net.frame :=
  forRange_preserves NeuralNetwork.frame _ _ _ _ (fun j s => forwardNeuron_frame T i j s)

theorem forwardLayer_links (T : Template) (i : Nat) (net : NeuralNetwork) :
    (forwardLayer T i net).m_links = net.m_links :=
  forRange_preserves NeuralNetwork.m_links _ _ _ _ (fun j s => forwardNeuron_links T i j s)

/-- The forward pass changes neither the widths, nor the sizes of the containers, nor the
activations. -/
theorem Calculate_frame (T : Template) (net : NeuralNetwork) (inputs : List ℚ) :
    (Calculate T net inputs).1.frame = net.frame := by
  rw [Calculate_fst]
  exact (forRange_preserves NeuralNetwork.frame _ _ _ _
    (fun i s => forwardLayer_frame T i s)).trans (setInputs_frame T net inputs)

/-- The forward pass changes no link. -/
theorem Calculate_links (T : Template) (net : NeuralNetwork) (inputs : List ℚ) :
    (Calculate T net inputs).1.m_links = net.m_links := by
  rw [Calculate_fst]
  exact (forRange_preserves NeuralNetwork.m_links _ _ _ _
    (fun i s => forwardLayer_links T i s)).trans (setInputs_links T net inputs)

/-! ## The training step -/

theorem Train_fst (RAND_MAX : Nat) (rand : Nat → Nat → Nat) (T : Template) (net : NeuralNetwork)
    (inputs optimal : List ℚ) (lRate dropout : ℚ) :
    (Train RAND_MAX rand T net inputs optimal lRate dropout).1 =
      adjustWeights T lRate (trainErrors RAND_MAX rand T net inputs optimal dropout) := rfl

theorem dropoutStep_frame (RAND_MAX : Nat) (rand : Nat → Nat → Nat) (T : Template)
    (dropout : ℚ) (net : NeuralNetwork) :
    (dropoutStep RAND_MAX rand T dropout net).frame = net.frame := by
  unfold dropoutStep
  split
  · refine forRange_preserves NeuralNetwork.frame _ _ _ _ (fun i s => ?_)
    refine forRange_preserves NeuralNetwork.frame _ _ _ _ (fun j s => ?_)
    dsimp only
    split
    · simp
    · rfl
  · rfl

theorem setOutputErrors_frame (T : Template) (optimal guess : List ℚ) (net : NeuralNetwork) :
    (setOutputErrors T optimal guess net).frame = net.frame :=
  forRange_preserves NeuralNetwork.frame _ _ _ _ (fun i s => by simp)

theorem errorSum_congr {net net' : NeuralNetwork} (i j : Nat)
    (hl : net'.m_links = net.m_links) (hs : net'.m_structure = net.m_structure)
    (hv : ∀ k, (net'.neuron (i + 1) k).error = (net.neuron (i + 1) k).error) :
    net'.errorSum i j = net.errorSum i j := by
  unfold NeuralNetwork.errorSum NeuralNetwork.width NeuralNetwork.link
  rw [hl, hs]
  exact Finset.sum_congr rfl (fun k _ => by rw [hv k])

theorem backNeuron_spec (i j : Nat) (net : NeuralNetwork) :
    (backNeuron i j net).frame = net.frame ∧ (backNeuron i j net).m_links = net.m_links ∧
    ∀ a b, (backNeuron i j net).neuron a b =
      if a = i ∧ b = j ∧ j < size2 net.m_neurons i then
        { net.neuron i j with error := net.errorSum i j }
      else net.neuron a b := by
  have key := forRange_inv
    (fun m s => s.frame = net.frame ∧ s.m_links = net.m_links ∧ ∀ a b, s.neuron a b =
      if a = i ∧ b = j ∧ j < size2 net.m_neurons i then
        { net.neuron i j with error := ∑ k ∈ Finset.range m,
            (net.link i (linkIndex (net.width (i + 1)) j k)).weight
              * (net.neuron (i + 1) k).error }
      else net.neuron a b) 0 (net.width (i + 1))
    (fun k net =>
      let index := linkIndex (net.width (i + 1)) j k
      net.modifyNeuron i j (fun x =>
        { x with error := x.error + (net.link i index).weight * (net.neuron (i + 1) k).error }))
    (net.modifyNeuron i j (fun x => { x with error := 0 }))
    (Nat.zero_le _)
    ⟨by simp, rfl, fun a b => by
      rw [NeuralNetwork.neuron_modifyNeuron]
      simp⟩
    (by
      rintro m s - - ⟨hf, hl, hs⟩
      refine ⟨?_, hl, ?_⟩
      · simpa using hf
      intro a b
      have hw : s.width (i + 1) = net.width (i + 1) := NeuralNetwork.width_of_frame hf _
      have hlk : ∀ c, s.link i c = net.link i c := fun c => by
        unfold NeuralNetwork.link
        rw [hl]
      have hn : ∀ k, s.neuron (i + 1) k = net.neuron (i + 1) k := fun k => by
        rw [hs (i + 1) k, if_neg (by omega)]
      show (s.modifyNeuron i j _).neuron a b = _
      rw [NeuralNetwork.neuron_modifyNeuron, NeuralNetwork.neurons_size_of_frame hf, hs a b,
        hs i j, hw, hlk, hn]
      by_cases h : a = i ∧ b = j ∧ j < size2 net.m_neurons i
      · have h' : j < size2 net.m_neurons i := h.2.2
        simp [h, h', Finset.sum_range_succ]
      · simp [h])
  obtain ⟨k1, k2, k3⟩ := key
  exact ⟨k1, k2, k3⟩

theorem backLayer_spec (T : Template) (i : Nat) (net : NeuralNetwork) :
    (backLayer T i net).frame = net.frame ∧ (backLayer T i net).m_links = net.m_links ∧
    ∀ a b, (backLayer T i net).neuron a b =
      if a = i ∧ b < net.width i + T.bias ∧ b < size2 net.m_neurons i then
        { net.neuron i b with error := net.errorSum i b }
      else net.neuron a b := by
  refine forRange_inv
    (fun m s => s.frame = net.frame ∧ s.m_links = net.m_links ∧ ∀ a b, s.neuron a b =
      if a = i ∧ b < m ∧ b < size2 net.m_neurons i then
        { net.neuron i b with error := net.errorSum i b }
      else net.neuron a b) 0 (net.width i + T.bias) (backNeuron i) net
    (Nat.zero_le _) ⟨rfl, rfl, fun a b => by simp⟩ ?_
  rintro m s - - ⟨hf, hl, hs⟩
  obtain ⟨hf', hl', hn'⟩ := backNeuron_spec i m s
  refine ⟨hf'.trans hf, hl'.trans hl, ?_⟩
  intro a b
  have hsum : s.errorSum i m = net.errorSum i m :=
    errorSum_congr i m hl (NeuralNetwork.m_structure_of_frame hf)
      (fun k => by rw [hs (i + 1) k, if_neg (by omega)])
  rw [hn' a b, NeuralNetwork.neurons_size_of_frame hf, hsum, hs a b, hs i m]
  by_cases ha : a = i
  · subst ha
    by_cases hb : b = m
    · subst hb
      by_cases hsz : b < size2 net.m_neurons a
      · simp [hsz]
      · simp [hsz]
    · have : b < m + 1 ↔ b < m := by omega
      simp [hb, this]
  · simp [ha]

theorem propagateErrors_frame (T : Template) (net : NeuralNetwork) :
    (propagateErrors T net).frame = net.frame :=
  forDownTo0_preserves NeuralNetwork.frame _ _ _ (fun i s => (backLayer_spec T i s).1)

theorem linkIndex_div {w j k : Nat} (hk : k < w) : linkIndex w j k / w = j := by
  unfold linkIndex
  have hw : 0 < w := by omega
  rw [Nat.add_comm, Nat.add_mul_div_right _ _ hw, Nat.div_eq_of_lt hk, Nat.zero_add]

theorem linkIndex_mod {w j k : Nat} (hk : k < w) : linkIndex w j k % w = k := by
  unfold linkIndex
  rw [Nat.add_comm, Nat.add_mul_mod_self_right, Nat.mod_eq_of_lt hk]

/-- Distinct (source, destination) pairs have distinct flat indices. -/
theorem linkIndex_inj {w j k j' k' : Nat} (hk : k < w) (hk' : k' < w)
    (h : linkIndex w j k = linkIndex w j' k') : j = j' ∧ k = k' :=
  ⟨by
    have e := congrArg (fun c => c / w) h
    simpa only [linkIndex_div hk, linkIndex_div hk'] using e,
   by
    have e := congrArg (fun c => c % w) h
    simpa only [linkIndex_mod hk, linkIndex_mod hk'] using e⟩

/-- The flat index of an existing pair lies inside the gap. -/
theorem linkIndex_lt {w n j k : Nat} (hj : j < n) (hk : k < w) : linkIndex w j k < n * w := by
  unfold linkIndex
  calc j * w + k < j * w + w := by omega
    _ = (j + 1) * w := by rw [Nat.succ_mul]
    _ ≤ n * w := Nat.mul_le_mul_right w hj

/-! ## The weight update -/

theorem neuron_of_m_neurons {net net' : NeuralNetwork} (h : net'.m_neurons = net.m_neurons)
    (a b : Nat) : net'.neuron a b = net.neuron a b := by
  unfold NeuralNetwork.neuron
  rw [h]

theorem delta_of_m_neurons {net net' : NeuralNetwork} (h : net'.m_neurons = net.m_neurons)
    (lRate : ℚ) (i j k : Nat) : net'.delta lRate i j k = net.delta lRate i j k := by
  unfold NeuralNetwork.delta
  rw [neuron_of_m_neurons h, neuron_of_m_neurons h]

theorem updateLink_spec (lRate : ℚ) (i j k : Nat) (net : NeuralNetwork) :
    (updateLink lRate i j k net).frame = net.frame ∧
    (updateLink lRate i j k net).m_neurons = net.m_neurons ∧
    ∀ a c, (updateLink lRate i j k net).link a c =
      if a = i ∧ c = linkIndex (net.width (i + 1)) j k ∧
          linkIndex (net.width (i + 1)) j k < size2 net.m_links i then
        { weight := (net.link i (linkIndex (net.width (i + 1)) j k)).weight
            + net.delta lRate i j k }
      else net.link a c :=
  ⟨NeuralNetwork.frame_modifyLink _ _ _ _, rfl,
    fun a c => NeuralNetwork.link_modifyLink _ _ _ _ a c⟩

theorem updateSource_spec (lRate : ℚ) (i j : Nat) (net : NeuralNetwork) :
    (updateSource lRate i j net).frame = net.frame ∧
    (updateSource lRate i j net).m_neurons = net.m_neurons ∧
    (∀ a c, a ≠ i → (updateSource lRate i j net).link a c = net.link a c) ∧
    ∀ j' k', k' < net.width (i + 1) →
      (updateSource lRate i j net).link i (linkIndex (net.width (i + 1)) j' k') =
        if j' = j ∧ linkIndex (net.width (i + 1)) j' k' < size2 net.m_links i then
          { weight := (net.link i (linkIndex (net.width (i + 1)) j' k')).weight
              + net.delta lRate i j' k' }
        else net.link i (linkIndex (net.width (i + 1)) j' k') := by
  have key := forRange_inv
    (fun m s => s.frame = net.frame ∧ s.m_neurons = net.m_neurons ∧
      (∀ a c, a ≠ i → s.link a c = net.link a c) ∧
      ∀ j' k', k' < net.width (i + 1) →
        s.link i (linkIndex (net.width (i + 1)) j' k') =
          if j' = j ∧ k' < m ∧ linkIndex (net.width (i + 1)) j' k' < size2 net.m_links i then
            { weight := (net.link i (linkIndex (net.width (i + 1)) j' k')).weight
                + net.delta lRate i j' k' }
          else net.link i (linkIndex (net.width (i + 1)) j' k'))
    0 (net.width (i + 1)) (updateLink lRate i j) net (Nat.zero_le _)
    ⟨rfl, rfl, fun _ _ _ => rfl, fun j' k' _ => by simp⟩
    (by
      rintro m s - hm ⟨hf, hn, hA, hB⟩
      obtain ⟨hf', hn', hl'⟩ := updateLink_spec lRate i j m s
      have hw : s.width (i + 1) = net.width (i + 1) := NeuralNetwork.width_of_frame hf _
      refine ⟨hf'.trans hf, hn'.trans hn, ?_, ?_⟩
      · intro a c ha
        rw [hl' a c, if_neg (fun h => ha h.1)]
        exact hA a c ha
      · intro j' k' hk'
        rw [hl', hw, NeuralNetwork.links_size_of_frame hf, delta_of_m_neurons hn, hB j m hm,
          hB j' k' hk']
        by_cases hj : j' = j
        · subst hj
          by_cases hkm : k' = m
          · subst hkm
            by_cases hsz : linkIndex (net.width (i + 1)) j' k' < size2 net.m_links i
            · simp [hsz]
            · simp [hsz]
          · have hne : linkIndex (net.width (i + 1)) j' k' ≠ linkIndex (net.width (i + 1)) j' m :=
              fun h => hkm (linkIndex_inj hk' hm h).2
            have : k' < m + 1 ↔ k' < m := by omega
            simp [hne, this]
        · have hne : linkIndex (net.width (i + 1)) j' k' ≠ linkIndex (net.width (i + 1)) j m :=
            fun h => hj (linkIndex_inj hk' hm h).1
          simp [hne, hj])
  obtain ⟨k1, k2, k3, k4⟩ := key
  refine ⟨k1, k2, k3, fun j' k' hk' => ?_⟩
  have := k4 j' k' hk'
  simp only [hk', true_and] at this
  exact this

theorem updateGap_spec (T : Template) (lRate : ℚ) (i : Nat) (net : NeuralNetwork) :
    (updateGap T lRate i net).frame = net.frame ∧
    (updateGap T lRate i net).m_neurons = net.m_neurons ∧
    (∀ a c, a ≠ i → (updateGap T lRate i net).link a c = net.link a c) ∧
    ∀ j' k', k' < net.width (i + 1) →
      (updateGap T lRate i net).link i (linkIndex (net.width (i + 1)) j' k') =
        if j' < net.width i + T.bias ∧
            linkIndex (net.width (i + 1)) j' k' < size2 net.m_links i then
          { weight := (net.link i (linkIndex (net.width (i + 1)) j' k')).weight
              + net.delta lRate i j' k' }
        else net.link i (linkIndex (net.width (i + 1)) j' k') := by
  refine forRange_inv
    (fun m s => s.frame = net.frame ∧ s.m_neurons = net.m_neurons ∧
      (∀ a c, a ≠ i → s.link a c = net.link a c) ∧
      ∀ j' k', k' < net.width (i + 1) →
        s.link i (linkIndex (net.width (i + 1)) j' k') =
          if j' < m ∧ linkIndex (net.width (i + 1)) j' k' < size2 net.m_links i then
            { weight := (net.link i (linkIndex (net.width (i + 1)) j' k')).weight
                + net.delta lRate i j' k' }
          else net.link i (linkIndex (net.width (i + 1)) j' k'))
    0 (net.width i + T.bias) (updateSource lRate i) net (Nat.zero_le _)
    ⟨rfl, rfl, fun _ _ _ => rfl, fun j' k' _ => by simp⟩ ?_
  rintro m s - - ⟨hf, hn, hA, hB⟩
  obtain ⟨hf', hn', hA', hB'⟩ := updateSource_spec lRate i m s
  have hw : s.width (i + 1) = net.width (i + 1) := NeuralNetwork.width_of_frame hf _
  rw [hw] at hB'
  refine ⟨hf'.trans hf, hn'.trans hn, fun a c ha => (hA' a c ha).trans (hA a c ha), ?_⟩
  intro j' k' hk'
  rw [hB' j' k' hk', NeuralNetwork.links_size_of_frame hf, delta_of_m_neurons hn,
    hB j' k' hk']
  by_cases hj : j' = m
  · subst hj
    by_cases hsz : linkIndex (net.width (i + 1)) j' k' < size2 net.m_links i
    · simp [hsz]
    · simp [hsz]
  · have : j' < m + 1 ↔ j' < m := by omega
    simp [hj, this]

theorem adjustWeights_frame (T : Template) (lRate : ℚ) (net : NeuralNetwork) :
    (adjustWeights T lRate net).frame = net.frame :=
  forRange_preserves NeuralNetwork.frame _ _ _ _ (fun i s => (updateGap_spec T lRate i s).1)

theorem trainErrors_frame (RAND_MAX : Nat) (rand : Nat → Nat → Nat) (T : Template)
    (net : NeuralNetwork) (inputs optimal : List ℚ) (dropout : ℚ) :
    (trainErrors RAND_MAX rand T net inputs optimal dropout).frame = net.frame := by
  unfold trainErrors
  rw [propagateErrors_frame, setOutputErrors_frame, dropoutStep_frame, Calculate_frame]

/-- A training step changes neither the widths, nor the sizes of the containers, nor the
activations. -/
theorem Train_frame (RAND_MAX : Nat) (rand : Nat → Nat → Nat) (T : Template)
    (net : NeuralNetwork) (inputs optimal : List ℚ) (lRate dropout : ℚ) :
    (Train RAND_MAX rand T net inputs optimal lRate dropout).1.frame = net.frame := by
  rw [Train_fst, adjustWeights_frame, trainErrors_frame]

/-! ## Loading -/

theorem loadWeights_frame (stod : String → Option ℚ) (T : Template) (net : NeuralNetwork)
    (save : List String) : (loadWeights stod T net save).net.frame = net.frame := by
  unfold loadWeights
  refine (forRange_preserves (fun st : LoadState => st.net.frame) _ _ _ _ (fun i st => ?_)).trans
    rfl
  refine forRange_preserves (fun st : LoadState => st.net.frame) _ _ _ _ (fun j st => ?_)
  dsimp only
  split
  · rfl
  · split
    · rfl
    · exact NeuralNetwork.frame_modifyLink _ _ _ _

theorem loadWeights_neurons (stod : String → Option ℚ) (T : Template) (net : NeuralNetwork)
    (save : List String) : (loadWeights stod T net save).net.m_neurons = net.m_neurons := by
  unfold loadWeights
  refine (forRange_preserves (fun st : LoadState => st.net.m_neurons) _ _ _ _
    (fun i st => ?_)).trans rfl
  refine forRange_preserves (fun st : LoadState => st.net.m_neurons) _ _ _ _ (fun j st => ?_)
  dsimp only
  split
  · rfl
  · split <;> rfl

/-- The network `LoadFromFile` leaves behind is the one it was given or the one the weight
loops produced. -/
theorem LoadFromFile_net (stoi : String → Option Int) (stod : String → Option ℚ) (T : Template)
    (net : NeuralNetwork) (save : List String) :
    (LoadFromFile stoi stod T net save).2 = net ∨
    (LoadFromFile stoi stod T net save).2 = (loadWeights stod T net save).net := by
  unfold LoadFromFile
  repeat' split
  all_goals first
    | exact Or.inl rfl
    | (right; dsimp only; split <;> rfl)

/-- Loading changes neither the widths, nor the sizes of the containers, nor the activations. -/
theorem LoadFromFile_frame (stoi : String → Option Int) (stod : String → Option ℚ)
    (T : Template) (net : NeuralNetwork) (save : List String) :
    (LoadFromFile stoi stod T net save).2.frame = net.frame := by
  rcases LoadFromFile_net stoi stod T net save with h | h
  · rw [h]
  · rw [h, loadWeights_frame]

/-- Every network a program can hold satisfies the representation invariant. -/
theorem Built.wf {T : Template} {net : NeuralNetwork} (h : Built T net) : WF T net := by
  induction h with
  | ctor hiddenLayers activation range newLink _ => exact new_WF T hiddenLayers activation range newLink
  | calculate net inputs _ ih => exact WF.of_frame (Calculate_frame T net inputs) ih
  | train R rand net inputs optimal lRate dropout _ ih =>
    exact WF.of_frame (Train_frame R rand T net inputs optimal lRate dropout) ih
  | load stoi stod net save _ ih => exact WF.of_frame (LoadFromFile_frame stoi stod T net save) ih

theorem LoadFromFile_eq (stoi : String → Option Int) (stod : String → Option ℚ) (T : Template)
    (net : NeuralNetwork) (save : List String) :
    LoadFromFile stoi stod T net save =
      match checkHeader stoi T net save with
      | some o => (o, net)
      | none => loadTail stod T net save := by
  unfold LoadFromFile checkHeader loadTail
  cases stoiAt stoi save 0 with
  | error f => rfl
  | ok b =>
    dsimp only
    by_cases c0 : decide (b ≠ 0) = T.tBias
    · rw [if_neg (not_not.mpr c0), if_neg (not_not.mpr c0)]
      cases stoiAt stoi save 1 with
      | error f => rfl
      | ok nIn =>
        dsimp only
        by_cases c1 : toUInt nIn = T.tInputs
        · rw [if_neg (not_not.mpr c1), if_neg (not_not.mpr c1)]
          cases stoiAt stoi save 2 with
          | error f => rfl
          | ok nOut =>
            dsimp only
            by_cases c2 : toUInt nOut = T.tOutputs
            · rw [if_neg (not_not.mpr c2), if_neg (not_not.mpr c2)]
              cases stoiAt stoi save 3 with
              | error f => rfl
              | ok nHid =>
                dsimp only
                by_cases c3 : toUInt nHid = T.tHidden
                · rw [if_neg (not_not.mpr c3), if_neg (not_not.mpr c3)]
                · rw [if_pos c3, if_pos c3]
            · rw [if_pos c2, if_pos c2]
        · rw [if_pos c1, if_pos c1]
    · rw [if_pos c0, if_pos c0]

theorem checkHidden_of_agree (stoi : String → Option Int) (T : Template) (net : NeuralNetwork)
    (save : List String)
    (h : ∀ i, 1 ≤ i → i ≤ T.tHidden → ∃ z, stoiAt stoi save (i + 3) = .ok z ∧
      net.width i = toUInt z) : checkHidden stoi T net save = none := by
  unfold checkHidden
  refine forRange_inv (fun _ (r : Option LoadOutcome) => r = none) 1
    (T.tHidden + 1) _ none (by omega) rfl ?_
  intro i r hi1 hi2 hr
  obtain ⟨z, hz, hw⟩ := h i hi1 (by omega)
  subst hr
  dsimp only
  rw [hz]
  dsimp only
  rw [if_neg (not_not.mpr hw)]

theorem checkHeader_of_agree (stoi : String → Option Int) (T : Template) (net : NeuralNetwork)
    (save : List String)
    (h : ∀ p, p < 4 + T.tHidden → ∃ z, stoiAt stoi save p = .ok z ∧ headerAgrees T net p z) :
    checkHeader stoi T net save = none := by
  obtain ⟨z0, h0, a0⟩ := h 0 (by omega)
  obtain ⟨z1, h1, a1⟩ := h 1 (by omega)
  obtain ⟨z2, h2, a2⟩ := h 2 (by omega)
  obtain ⟨z3, h3, a3⟩ := h 3 (by omega)
  simp only [headerAgrees] at a0 a1 a2 a3
  unfold checkHeader
  rw [h0]
  dsimp only
  rw [if_neg (not_not.mpr a0), h1]
  dsimp only
  rw [if_neg (not_not.mpr a1), h2]
  dsimp only
  rw [if_neg (not_not.mpr a2), h3]
  dsimp only
  rw [if_neg (not_not.mpr a3)]
  apply checkHidden_of_agree
  intro i hi1 hi2
  obtain ⟨k, rfl⟩ : ∃ k, i = k + 1 := ⟨i - 1, by omega⟩
  obtain ⟨z, hz, az⟩ := h (k + 4) (by omega)
  exact ⟨z, hz, az⟩

theorem linkOffset_succ (net : NeuralNetwork) (i : Nat) :
    net.linkOffset (i + 1) = net.linkOffset i + size2 net.m_links i := by
  unfold NeuralNetwork.linkOffset
  rw [Finset.sum_range_succ]

theorem linkOffset_mono (net : NeuralNetwork) {i k : Nat} (h : i ≤ k) :
    net.linkOffset i ≤ net.linkOffset k := by
  induction k with
  | zero =>
    have : i = 0 := by omega
    rw [this]
  | succ k ih =>
    rcases Nat.lt_or_ge i (k + 1) with hlt | hge
    · rw [linkOffset_succ]
      exact Nat.le_trans (ih (by omega)) (Nat.le_add_right _ _)
    · have : i = k + 1 := by omega
      rw [this]

/-- One gap of the weight loops, when every line it reads converts. -/
theorem loadGap_spec (stod : String → Option ℚ) (T : Template) (save : List String)
    (w : Nat → ℚ) (i : Nat) (st : LoadState) (hfault : st.fault = none)
    (hread : ∀ j, j < size2 st.net.m_links i →
      stodAt stod save (st.index + j + 3 + T.tHidden + 1) = .ok (w (st.index + j))) :
    (forRange 0 (size2 st.net.m_links i) (fun j st =>
      match st.fault with
      | some _ => st
      | none =>
        match stodAt stod save (st.index + 3 + T.tHidden + 1) with
        | .error f => { st with fault := some f }
        | .ok w =>
          { net := st.net.modifyLink i j (fun l => { l with weight := w }),
            index := st.index + 1, fault := none }) st).fault = none ∧
    (forRange 0 (size2 st.net.m_links i) (fun j st =>
      match st.fault with
      | some _ => st
      | none =>
        match stodAt stod save (st.index + 3 + T.tHidden + 1) with
        | .error f => { st with fault := some f }
        | .ok w =>
          { net := st.net.modifyLink i j (fun l => { l with weight := w }),
            index := st.index + 1, fault := none }) st).index
      = st.index + size2 st.net.m_links i ∧
    (forRange 0 (size2 st.net.m_links i) (fun j st =>
      match st.fault with
      | some _ => st
      | none =>
        match stodAt stod save (st.index + 3 + T.tHidden + 1) with
        | .error f => { st with fault := some f }
        | .ok w =>
          { net := st.net.modifyLink i j (fun l => { l with weight := w }),
            index := st.index + 1, fault := none }) st).net.frame = st.net.frame ∧
    ∀ a c, (forRange 0 (size2 st.net.m_links i) (fun j st =>
      match st.fault with
      | some _ => st
      | none =>
        match stodAt stod save (st.index + 3 + T.tHidden + 1) with
        | .error f => { st with fault := some f }
        | .ok w =>
          { net := st.net.modifyLink i j (fun l => { l with weight := w }),
            index := st.index + 1, fault := none }) st).net.link a c =
      if a = i ∧ c < size2 st.net.m_links i then { weight := w (st.index + c) }
      else st.net.link a c := by
  have key := forRange_inv
    (fun m (s : LoadState) => s.fault = none ∧ s.index = st.index + m ∧
      s.net.frame = st.net.frame ∧
      ∀ a c, s.net.link a c =
        if a = i ∧ c < m ∧ c < size2 st.net.m_links i then { weight := w (st.index + c) }
        else st.net.link a c)
    0 (size2 st.net.m_links i) (fun j st =>
      match st.fault with
      | some _ => st
      | none =>
        match stodAt stod save (st.index + 3 + T.tHidden + 1) with
        | .error f => { st with fault := some f }
        | .ok w =>
          { net := st.net.modifyLink i j (fun l => { l with weight := w }),
            index := st.index + 1, fault := none }) st (Nat.zero_le _)
    ⟨hfault, rfl, rfl, fun a c => by simp⟩
    (by
      rintro m s - hm ⟨h1, h2, h3, h4⟩
      have hr := hread m hm
      have e : s.index + 3 + T.tHidden + 1 = st.index + m + 3 + T.tHidden + 1 := by omega
      dsimp only
      rw [h1]
      dsimp only
      rw [e, hr]
      dsimp only
      refine ⟨rfl, by omega, (NeuralNetwork.frame_modifyLink _ _ _ _).trans h3, ?_⟩
      intro a c
      rw [NeuralNetwork.link_modifyLink, NeuralNetwork.links_size_of_frame h3, h4 a c]
      by_cases ha : a = i
      · subst ha
        by_cases hc : c = m
        · subst hc
          simp [hm]
        · have : c < m + 1 ↔ c < m := by omega
          simp [hc, this]
      · simp [ha])
  obtain ⟨k1, k2, k3, k4⟩ := key
  refine ⟨k1, k2, k3, fun a c => ?_⟩
  rw [k4 a c]
  by_cases h : a = i ∧ c < size2 st.net.m_links i
  · rw [if_pos ⟨h.1, h.2, h.2⟩, if_pos h]
  · rw [if_neg (fun h' => h ⟨h'.1, h'.2.2⟩), if_neg h]

/-- The weight loops, when every line they read converts: no fault, and link `j` of gap `i`
holds the number converted from weight line `linkOffset i + j`. -/
theorem loadWeights_spec (stod : String → Option ℚ) (T : Template) (net : NeuralNetwork)
    (save : List String) (w : Nat → ℚ)
    (hread : ∀ n, n < net.linkOffset (T.tHidden + 1) →
      stodAt stod save (4 + T.tHidden + n) = .ok (w n)) :
    (loadWeights stod T net save).fault = none ∧
    ∀ i j, i ≤ T.tHidden → j < size2 net.m_links i →
      (loadWeights stod T net save).net.link i j = { weight := w (net.linkOffset i + j) } := by
  have key := forRange_inv
    (fun m (s : LoadState) => s.fault = none ∧ s.index = net.linkOffset m ∧
      s.net.frame = net.frame ∧
      ∀ a c, s.net.link a c =
        if a < m ∧ c < size2 net.m_links a then { weight := w (net.linkOffset a + c) }
        else net.link a c)
    0 (T.tHidden + 1) (fun i st =>
      forRange 0 (size2 st.net.m_links i) (fun j st =>
        match st.fault with
        | some _ => st
        | none =>
          match stodAt stod save (st.index + 3 + T.tHidden + 1) with
          | .error f => { st with fault := some f }
          | .ok w =>
            { net := st.net.modifyLink i j (fun l => { l with weight := w }),
              index := st.index + 1, fault := none }) st)
    { net := net, index := 0, fault := none } (Nat.zero_le _)
    ⟨rfl, by simp [NeuralNetwork.linkOffset], rfl, fun a c => by simp⟩
    (by
      rintro m s - hm ⟨h1, h2, h3, h4⟩
      have hsz : size2 s.net.m_links m = size2 net.m_links m :=
        NeuralNetwork.links_size_of_frame h3 m
      obtain ⟨g1, g2, g3, g4⟩ := loadGap_spec stod T save w m s h1 (by
        intro j hj
        rw [hsz] at hj
        have hle : net.linkOffset (m + 1) ≤ net.linkOffset (T.tHidden + 1) :=
          linkOffset_mono net (by omega)
        rw [linkOffset_succ] at hle
        have e : s.index + j + 3 + T.tHidden + 1 = 4 + T.tHidden + (s.index + j) := by omega
        rw [e]
        exact hread _ (by omega))
      refine ⟨g1, ?_, g3.trans h3, ?_⟩
      · rw [g2, h2, hsz, linkOffset_succ]
      · intro a c
        rw [g4 a c, hsz, h4 a c, h2]
        by_cases ha : a = m
        · subst ha
          by_cases hc : c < size2 net.m_links a
          · simp [hc]
          · simp [hc]
        · have : a < m + 1 ↔ a < m := by omega
          simp [ha, this])
  obtain ⟨k1, -, -, k4⟩ := key
  refine ⟨k1, fun i j hi hj => ?_⟩
  have := k4 i j
  rw [if_pos ⟨by omega, hj⟩] at this
  exact this

/-! ## Claims -/

theorem scenarioNet_built (w : Nat → Nat → Nat → ℚ) : Built scenarioTemplate (scenarioNet w) :=
  Built.ctor [2] Activation.none (-5, 5) _ rfl

theorem Calculate_scenario (w : Nat → Nat → Nat → ℚ) :
    (Calculate scenarioTemplate (scenarioNet w) [1, 1]).2 =
      [w 1 0 0 * (w 0 0 0 * 1 + w 0 1 0 * 1 + w 0 2 0 * 1)
        + w 1 1 0 * (w 0 0 1 * 1 + w 0 1 1 * 1 + w 0 2 1 * 1) + w 1 2 0 * 1] := by
  simp [Calculate, scenarioNet, NeuralNetwork.new, scenarioTemplate, forRange, for_async,
    List.range', push2, Template.bias, NeuralNetwork.modifyNeuron, modify2,
    NeuralNetwork.width, NeuralNetwork.link, NeuralNetwork.neuron, get2, linkIndex, Neuron.new,
    Activation.none]

/-- C8. Successful load. For every file whose first `4 + tHidden` lines convert and agree with
the live network's bias flag, input width, output width, hidden count and hidden widths, and
whose next `N = Σ_i links[i].size()` lines convert under `std::stod`, `LoadFromFile` returns
`true` and afterwards the weight at gap `i`, flat index `j` is the number converted from line
`4 + tHidden + (links[0].size() + ... + links[i-1].size()) + j` (0-based) of the file. -/
theorem LoadFromFile_success (stoi : String → Option Int) (stod : String → Option ℚ)
    (T : Template) (net : NeuralNetwork) (save : List String) (w : Nat → ℚ)
    (hhead : ∀ p, p < 4 + T.tHidden →
      ∃ z, stoiAt stoi save p = .ok z ∧ headerAgrees T net p z)
    (hweights : ∀ n, n < net.linkOffset (T.tHidden + 1) →
      stodAt stod save (4 + T.tHidden + n) = .ok (w n)) :
    (LoadFromFile stoi stod T net save).1 = .returned true ∧
    ∀ i j, i ≤ T.tHidden → j < size2 net.m_links i →
      ((LoadFromFile stoi stod T net save).2.link i j).weight = w (net.linkOffset i + j) := by
  obtain ⟨l1, l2⟩ := loadWeights_spec stod T net save w hweights
  rw [LoadFromFile_eq, checkHeader_of_agree stoi T net save hhead]
  dsimp only
  unfold loadTail
  dsimp only
  rw [l1]
  refine ⟨rfl, fun i j hi hj => ?_⟩
  dsimp only
  rw [l2 i j hi hj]

/-- C8, at the file `1, 1, 1, 0, 0.5, -2.5e-1` read into a network of template
`<1, 0, 1, true>`: the two links end at `1/2` and `-1/4`. -/
theorem LoadFromFile_success_witness :
    (∀ p, p < 4 + smallTemplate.tHidden →
      ∃ z, stoiAt stoiModel ["1", "1", "1", "0", "0.5", "-2.5e-1"] p = .ok z ∧
        headerAgrees smallTemplate smallNet p z) ∧
    (∀ n, n < smallNet.linkOffset (smallTemplate.tHidden + 1) →
      stodAt stodModel ["1", "1", "1", "0", "0.5", "-2.5e-1"] (4 + smallTemplate.tHidden + n)
        = .ok (([1 / 2, -1 / 4] : List ℚ).getD n 0)) ∧
    (LoadFromFile stoiModel stodModel smallTemplate smallNet
      ["1", "1", "1", "0", "0.5", "-2.5e-1"]).1 = .returned true ∧
    ((LoadFromFile stoiModel stodModel smallTemplate smallNet
      ["1", "1", "1", "0", "0.5", "-2.5e-1"]).2.link 0 1).weight = -1 / 4 := by
  have hsz : size2 smallNet.m_links 0 = 2 := by decide
  have hoff : smallNet.linkOffset (smallTemplate.tHidden + 1) = 2 := by
    show smallNet.linkOffset 1 = 2
    rw [linkOffset_succ, hsz]
    rfl
  have hhead : ∀ p, p < 4 + smallTemplate.tHidden →
      ∃ z, stoiAt stoiModel ["1", "1", "1", "0", "0.5", "-2.5e-1"] p = .ok z ∧
        headerAgrees smallTemplate smallNet p z := by
    intro p hp
    have hp4 : p < 4 := hp
    interval_cases p
    · exact ⟨1, by rfl, by show decide ((1 : Int) ≠ 0) = smallTemplate.tBias; decide⟩
    · exact ⟨1, by rfl, by show toUInt 1 = smallTemplate.tInputs; decide⟩
    · exact ⟨1, by rfl, by show toUInt 1 = smallTemplate.tOutputs; decide⟩
    · exact ⟨0, by rfl, by show toUInt 0 = smallTemplate.tHidden; decide⟩
  have hweights : ∀ n, n < smallNet.linkOffset (smallTemplate.tHidden + 1) →
      stodAt stodModel ["1", "1", "1", "0", "0.5", "-2.5e-1"] (4 + smallTemplate.tHidden + n)
        = .ok (([1 / 2, -1 / 4] : List ℚ).getD n 0) := by
    intro n hn
    rw [hoff] at hn
    interval_cases n
    · simp [stodAt, stodModel, isSpace, leadingDigits, natOfDigits, smallTemplate]
      norm_num
    · simp [stodAt, stodModel, isSpace, leadingDigits, natOfDigits, smallTemplate]
      norm_num
  have h := LoadFromFile_success stoiModel stodModel smallTemplate smallNet
    ["1", "1", "1", "0", "0.5", "-2.5e-1"] (fun n => ([1 / 2, -1 / 4] : List ℚ).getD n 0)
    hhead hweights
  refine ⟨hhead, hweights, h.1, ?_⟩
  rw [h.2 0 1 (by decide) (by rw [hsz]; decide)]
  show ([1 / 2, -1 / 4] : List ℚ).getD (smallNet.linkOffset 0 + 1) 0 = -1 / 4
  rfl

/-- C9, at a failing input. The file `1, 1, 1, 0, 0.5, abc` read into a network of template
`<1, 0, 1, true>` whose two links weigh `3` and `4`: the header is accepted, the first weight
is overwritten with `1/2`, then `std::stod` throws on `abc`: the call fails and leaves the
first link overwritten, the second at its old value. On the truncated file `1, 1, 1, 0, 0.5`
the first weight is overwritten and the next line is read past the end of the vector. -/
theorem LoadFromFile_fails_after_overwrite :
    Built smallTemplate smallNet ∧
    (smallNet.link 0 0).weight = 3 ∧ (smallNet.link 0 1).weight = 4 ∧
    (LoadFromFile stoiModel stodModel smallTemplate smallNet
      ["1", "1", "1", "0", "0.5", "abc"]).1 = .failed .exception ∧
    ((LoadFromFile stoiModel stodModel smallTemplate smallNet
      ["1", "1", "1", "0", "0.5", "abc"]).2.link 0 0).weight = 1 / 2 ∧
    ((LoadFromFile stoiModel stodModel smallTemplate smallNet
      ["1", "1", "1", "0", "0.5", "abc"]).2.link 0 1).weight = 4 ∧
    (LoadFromFile stoiModel stodModel smallTemplate smallNet
      ["1", "1", "1", "0", "0.5"]).1 = .failed .outOfBounds ∧
    ((LoadFromFile stoiModel stodModel smallTemplate smallNet
      ["1", "1", "1", "0", "0.5"]).2.link 0 0).weight = 1 / 2 := by
  refine ⟨Built.ctor [] Activation.none (-5, 5) _ rfl, ?_, ?_, by decide, ?_, ?_, by decide, ?_⟩
  · simp [smallNet, NeuralNetwork.new, smallTemplate, forRange, List.range', push2,
      Template.bias, NeuralNetwork.link, get2]
  · simp [smallNet, NeuralNetwork.new, smallTemplate, forRange, List.range', push2,
      Template.bias, NeuralNetwork.link, get2]
    norm_num
  · simp [LoadFromFile, checkHidden, loadWeights, stoiAt, stodAt, stoiModel, stodModel,
      isSpace, leadingDigits, natOfDigits, toUInt, smallNet, NeuralNetwork.new, smallTemplate, forRange,
      List.range', push2, Template.bias, NeuralNetwork.link, NeuralNetwork.modifyLink, modify2,
      size2, get2, NeuralNetwork.width]
    norm_num
  · simp [LoadFromFile, checkHidden, loadWeights, stoiAt, stodAt, stoiModel, stodModel,
      isSpace, leadingDigits, natOfDigits, toUInt, smallNet, NeuralNetwork.new, smallTemplate, forRange,
      List.range', push2, Template.bias, NeuralNetwork.link, NeuralNetwork.modifyLink, modify2,
      size2, get2, NeuralNetwork.width]
    norm_num
  · simp [LoadFromFile, checkHidden, loadWeights, stoiAt, stodAt, stoiModel, stodModel,
      isSpace, leadingDigits, natOfDigits, toUInt, smallNet, NeuralNetwork.new, smallTemplate,
      forRange, List.range', push2, Template.bias, NeuralNetwork.link,
      NeuralNetwork.modifyLink, modify2, size2, get2, NeuralNetwork.width]
    norm_num

/-- The network `Calculate` leaves behind, field by field. -/
theorem Calculate_spec (T : Template) (net : NeuralNetwork) (inputs : List ℚ) (hw : WF T net) :
    (∀ b, b < T.tInputs → ((Calculate T net inputs).1.neuron 0 b).value = inputs.getD b 0) ∧
    (∀ a b, net.width a ≤ b → (Calculate T net inputs).1.neuron a b = net.neuron a b) ∧
    (∀ a b, 1 ≤ a → a ≤ T.tHidden + 1 → b < net.width a →
      ((Calculate T net inputs).1.neuron a b).raw = (Calculate T net inputs).1.weightedSum T a b ∧
      ((Calculate T net inputs).1.neuron a b).value =
        net.m_activation.funct ((Calculate T net inputs).1.weightedSum T a b)) ∧
    (∀ a b, ((Calculate T net inputs).1.neuron a b).error = (net.neuron a b).error) := by
  have hw1 : WF T (setInputs T net inputs) := WF.of_frame (setInputs_frame T net inputs) hw
  obtain ⟨-, -, hsame, herr, hval⟩ := forwardLayers_spec T (setInputs T net inputs) hw1
  have hwidth : ∀ a, (setInputs T net inputs).width a = net.width a :=
    NeuralNetwork.width_of_frame (setInputs_frame T net inputs)
  have hact : (setInputs T net inputs).m_activation = net.m_activation :=
    NeuralNetwork.m_activation_of_frame (setInputs_frame T net inputs)
  rw [Calculate_fst]
  refine ⟨?_, ?_, ?_, ?_⟩
  · intro b hb
    rw [hsame 0 b (Or.inl rfl), setInputs_neuron,
      if_pos ⟨rfl, hb, by rw [hw.neurons_size 0 (Nat.zero_le _), hw.width_inputs]; omega⟩]
  · intro a b hab
    rw [hsame a b (Or.inr (Or.inr (by rw [hwidth]; exact hab))), setInputs_neuron, if_neg]
    rintro ⟨rfl, h1, -⟩
    rw [hw.width_inputs] at hab
    omega
  · intro a b ha1 ha2 hb
    have := hval a b ha1 (by omega) (by rw [hwidth]; exact hb)
    rw [hact] at this
    exact this
  · intro a b
    rw [herr a b, setInputs_neuron]
    split
    · rename_i h
      rw [h.1]
    · rfl

theorem weightedSum_congr_range (T : Template) {net net' : NeuralNetwork} (i j : Nat)
    (hl : net'.m_links = net.m_links) (hs : net'.m_structure = net.m_structure)
    (hv : ∀ k, k < net.width (i - 1) + T.bias →
      (net'.neuron (i - 1) k).value = (net.neuron (i - 1) k).value) :
    net'.weightedSum T i j = net.weightedSum T i j := by
  unfold NeuralNetwork.weightedSum NeuralNetwork.link
  have hwd : ∀ a, net'.width a = net.width a := fun a => by
    unfold NeuralNetwork.width
    rw [hs]
  rw [hl, hwd, hwd]
  exact Finset.sum_congr rfl (fun k hk => by rw [hv k (Finset.mem_range.mp hk)])

/-- The values of the forward pass are the same in two states of a network that agree on the
weights and on the bias slots. -/
theorem Calculate_value_congr (T : Template) (net₁ net₂ : NeuralNetwork) (inputs : List ℚ)
    (h₁ : WF T net₁) (h₂ : WF T net₂) (hl : net₁.m_links = net₂.m_links)
    (hs : net₁.m_structure = net₂.m_structure) (ha : net₁.m_activation = net₂.m_activation)
    (hb : ∀ i, i ≤ T.tHidden →
      (net₁.neuron i (net₁.width i)).value = (net₂.neuron i (net₂.width i)).value) :
    ∀ a b, a ≤ T.tHidden + 1 → b < net₁.width a ∨ (a ≤ T.tHidden ∧ b = net₁.width a) →
      ((Calculate T net₁ inputs).1.neuron a b).value =
        ((Calculate T net₂ inputs).1.neuron a b).value := by
  obtain ⟨i1, s1, v1, -⟩ := Calculate_spec T net₁ inputs h₁
  obtain ⟨i2, s2, v2, -⟩ := Calculate_spec T net₂ inputs h₂
  have hwd : ∀ a, net₁.width a = net₂.width a := fun a => by
    unfold NeuralNetwork.width
    rw [hs]
  have hbias : ∀ a, a ≤ T.tHidden →
      ((Calculate T net₁ inputs).1.neuron a (net₁.width a)).value =
        ((Calculate T net₂ inputs).1.neuron a (net₁.width a)).value := by
    intro a ha'
    rw [s1 a _ (le_refl _), s2 a _ (by rw [hwd]), hb a ha', hwd]
  intro a
  induction a with
  | zero =>
    intro b _ hb'
    rcases hb' with hlt | ⟨hle, rfl⟩
    · rw [h₁.width_inputs] at hlt
      rw [i1 b hlt, i2 b hlt]
    · exact hbias 0 hle
  | succ a ih =>
    intro b ha' hb'
    rcases hb' with hlt | ⟨hle, rfl⟩
    · have e1 := (v1 (a + 1) b (by omega) ha' hlt).2
      have e2 := (v2 (a + 1) b (by omega) ha' (by rw [← hwd]; exact hlt)).2
      rw [e1, e2, ha]
      congr 1
      refine weightedSum_congr_range T (a + 1) b ?_ ?_ ?_
      · rw [Calculate_links, Calculate_links, hl]
      · rw [NeuralNetwork.m_structure_of_frame (Calculate_frame T net₁ inputs),
          NeuralNetwork.m_structure_of_frame (Calculate_frame T net₂ inputs), hs]
      · intro k hk
        rw [NeuralNetwork.width_of_frame (Calculate_frame T net₂ inputs), ← hwd] at hk
        have hbound : T.bias ≤ 1 := by
          unfold Template.bias
          cases T.tBias <;> decide
        refine ih k (by omega) ?_
        show k < net₁.width a ∨ (a ≤ T.tHidden ∧ k = net₁.width a)
        have : a + 1 - 1 = a := rfl
        rw [this] at hk
        omega
    · exact hbias (a + 1) hle

/-- The array `Calculate` returns is the same in two states of a network that agree on the
weights and on the bias slots. -/
theorem Calculate_snd_congr (T : Template) (net₁ net₂ : NeuralNetwork) (inputs : List ℚ)
    (h₁ : WF T net₁) (h₂ : WF T net₂) (hl : net₁.m_links = net₂.m_links)
    (hs : net₁.m_structure = net₂.m_structure) (ha : net₁.m_activation = net₂.m_activation)
    (hb : ∀ i, i ≤ T.tHidden →
      (net₁.neuron i (net₁.width i)).value = (net₂.neuron i (net₂.width i)).value) :
    (Calculate T net₁ inputs).2 = (Calculate T net₂ inputs).2 := by
  have key := Calculate_value_congr T net₁ net₂ inputs h₁ h₂ hl hs ha hb
  rw [Calculate_snd, forRange_fill, Calculate_snd, forRange_fill]
  refine List.map_congr_left (fun i hi => ?_)
  refine key (T.tHidden + 1) i (le_refl _) (Or.inl ?_)
  rw [h₁.width_outputs]
  exact List.mem_range.mp hi

/-! ## The training step, field by field -/

/-- A checked loop whose iterations all succeed, and keep `P`, yields the result of the plain
loop. -/
theorem forRangeM_eq_some {σ : Type} (P : σ → Prop) (lo hi : Nat) (bodyM : Nat → σ → Option σ)
    (body : Nat → σ → σ) (s : σ) (h0 : P s)
    (hstep : ∀ i s, lo ≤ i → i < hi → P s → bodyM i s = some (body i s) ∧ P (body i s)) :
    forRangeM lo hi bodyM s = some (forRange lo hi body s) ∧ P (forRange lo hi body s) := by
  unfold forRangeM
  induction hi with
  | zero =>
    rw [forRange_of_le _ _ _ _ (Nat.zero_le lo), forRange_of_le _ _ _ _ (Nat.zero_le lo)]
    exact ⟨rfl, h0⟩
  | succ n ih =>
    rcases Nat.lt_or_ge n lo with hlt | hge
    · rw [forRange_of_le _ _ _ _ (Nat.succ_le_of_lt hlt),
        forRange_of_le _ _ _ _ (Nat.succ_le_of_lt hlt)]
      exact ⟨rfl, h0⟩
    · rw [forRange_succ _ _ _ _ hge, forRange_succ _ _ _ _ hge]
      obtain ⟨e, p⟩ := ih (fun i s h1 h2 h3 => hstep i s h1 (Nat.lt_succ_of_lt h2) h3)
      rw [e, Option.some_bind]
      exact hstep n _ hge (Nat.lt_succ_self n) p

/-- The rule of `forRangeM_eq_some` for the downward loop. -/
theorem forDownTo0M_eq_some {σ : Type} (P : σ → Prop) (n : Nat) (bodyM : Nat → σ → Option σ)
    (body : Nat → σ → σ) (s : σ) (h0 : P s)
    (hstep : ∀ i s, i ≤ n → P s → bodyM i s = some (body i s) ∧ P (body i s)) :
    forDownTo0M n bodyM s = some (forDownTo0 n body s) ∧ P (forDownTo0 n body s) := by
  unfold forDownTo0M
  induction n generalizing s with
  | zero => exact hstep 0 s (le_refl _) h0
  | succ n ih =>
    obtain ⟨e, p⟩ := hstep (n + 1) s (le_refl _) h0
    show forDownTo0 n _ ((some s).bind (bodyM (n + 1))) = _ ∧ _
    rw [Option.some_bind, e]
    exact ih (body (n + 1) s) p (fun i s hi hp => hstep i s (Nat.le_succ_of_le hi) hp)

/-- A checked loop whose first iteration fails has failed. -/
theorem forRangeM_eq_none {σ : Type} (lo hi : Nat) (bodyM : Nat → σ → Option σ) (s : σ)
    (hlt : lo < hi) (h : bodyM lo s = none) : forRangeM lo hi bodyM s = none := by
  unfold forRangeM forRange
  obtain ⟨n, hn⟩ : ∃ n, hi - lo = n + 1 := ⟨hi - lo - 1, by omega⟩
  rw [hn, List.range'_succ, List.foldl_cons]
  dsimp only
  rw [Option.some_bind, h]
  generalize List.range' (lo + 1) n = l
  induction l with
  | nil => rfl
  | cons x xs ih => rw [List.foldl_cons, Option.none_bind, ih]

theorem neuronChecked_eq {T : Template} {net : NeuralNetwork} (hw : WF T net) {a b : Nat}
    (ha : a ≤ T.tHidden + 1) (hb : b < size2 net.m_neurons a) :
    net.neuronChecked a b = some (net.neuron a b) :=
  if_pos ⟨by rw [hw.neurons_length]; omega, hb⟩

theorem modifyNeuronChecked_eq {T : Template} {net : NeuralNetwork} (hw : WF T net) {a b : Nat}
    (f : Neuron → Neuron) (ha : a ≤ T.tHidden + 1) (hb : b < size2 net.m_neurons a) :
    net.modifyNeuronChecked a b f = some (net.modifyNeuron a b f) :=
  if_pos ⟨by rw [hw.neurons_length]; omega, hb⟩

theorem linkChecked_eq {T : Template} {net : NeuralNetwork} (hw : WF T net) {i j k : Nat}
    (hi : i ≤ T.tHidden) (hj : j < net.width i + T.bias) (hk : k < net.width (i + 1)) :
    net.linkChecked i (linkIndex (net.width (i + 1)) j k) =
      some (net.link i (linkIndex (net.width (i + 1)) j k)) :=
  if_pos ⟨by rw [hw.links_length]; omega, by rw [hw.links_size i hi]; exact linkIndex_lt hj hk⟩

theorem modifyLinkChecked_eq {T : Template} {net : NeuralNetwork} (hw : WF T net) {i j k : Nat}
    (f : Link → Link) (hi : i ≤ T.tHidden) (hj : j < net.width i + T.bias)
    (hk : k < net.width (i + 1)) :
    net.modifyLinkChecked i (linkIndex (net.width (i + 1)) j k) f =
      some (net.modifyLink i (linkIndex (net.width (i + 1)) j k) f) :=
  if_pos ⟨by rw [hw.links_length]; omega, by rw [hw.links_size i hi]; exact linkIndex_lt hj hk⟩

/-- Slot `b < structure[a] + tBias` of a layer `a ≤ tHidden` exists. -/
theorem WF.lt_size_bias {T : Template} {net : NeuralNetwork} (hw : WF T net) {a b : Nat}
    (ha : a ≤ T.tHidden) (hb : b < net.width a + T.bias) : b < size2 net.m_neurons a := by
  rw [hw.neurons_size a ha]
  exact hb

theorem setInputsChecked_eq (T : Template) (net : NeuralNetwork) (inputs : List ℚ)
    (hw : WF T net) : setInputsChecked T net inputs = some (setInputs T net inputs) := by
  unfold setInputsChecked setInputs
  refine (forRangeM_eq_some (fun s : NeuralNetwork => s.frame = net.frame) _ _ _ _ _ rfl
    (fun i s _ hi hf => ⟨?_, ?_⟩)).1
  · have hws := WF.of_frame hf hw
    exact modifyNeuronChecked_eq hws _ (Nat.zero_le _)
      (hws.lt_size_bias (Nat.zero_le _) (by rw [hws.width_inputs]; omega))
  · exact (NeuralNetwork.frame_setValue _ _ _ _).trans hf

theorem forwardNeuronChecked_eq (T : Template) (i j : Nat) (net : NeuralNetwork) (hw : WF T net)
    (h1 : 1 ≤ i) (h2 : i ≤ T.tHidden + 1) (hj : j < net.width i) :
    forwardNeuronChecked T i j net = some (forwardNeuron T i j net) := by
  have hsum := (forRangeM_eq_some (fun _ : ℚ => True) 0 (net.width (i - 1) + T.bias)
    (fun k sum =>
      (net.linkChecked (i - 1) (linkIndex (net.width i) k j)).bind fun l =>
        (net.neuronChecked (i - 1) k).bind fun x => some (sum + l.weight * x.value))
    (fun k sum => sum + (net.link (i - 1) (linkIndex (net.width i) k j)).weight
      * (net.neuron (i - 1) k).value) 0 trivial
    (fun k sum _ hk _ => ⟨by
      have hl := linkChecked_eq hw (i := i - 1) (j := k) (k := j) (by omega) hk
        (by rw [Nat.sub_add_cancel h1]; exact hj)
      rw [Nat.sub_add_cancel h1] at hl
      dsimp only
      rw [hl, Option.some_bind, neuronChecked_eq hw (by omega)
        (hw.lt_size_bias (by omega) hk), Option.some_bind], trivial⟩)).1
  have hsz : j < size2 net.m_neurons i := hw.lt_size h2 hj
  unfold forwardNeuronChecked forwardNeuron
  simp only [Option.bind_eq_bind, Option.pure_def]
  rw [hsum, Option.some_bind, modifyNeuronChecked_eq hw _ h2 hsz, Option.some_bind]
  exact modifyNeuronChecked_eq (WF.of_frame (NeuralNetwork.frame_setValue _ _ _ _) hw) _ h2
    (by rw [NeuralNetwork.modifyNeuron, size2_modify2]; exact hsz)

theorem forwardLayerChecked_eq (T : Template) (i : Nat) (net : NeuralNetwork) (hw : WF T net)
    (h1 : 1 ≤ i) (h2 : i ≤ T.tHidden + 1) :
    forwardLayerChecked T i net = some (forwardLayer T i net) := by
  unfold forwardLayerChecked forwardLayer for_async
  refine (forRangeM_eq_some (fun s : NeuralNetwork => s.frame = net.frame) _ _ _ _ _ rfl
    (fun j s _ hj hf => ⟨?_, (forwardNeuron_frame T i j s).trans hf⟩)).1
  exact forwardNeuronChecked_eq T i j s (WF.of_frame hf hw) h1 h2
    (by rw [NeuralNetwork.width_of_frame hf]; exact hj)

theorem forwardLayersChecked_eq (T : Template) (net : NeuralNetwork) (hw : WF T net) :
    forRangeM 1 (T.tHidden + 2) (forwardLayerChecked T) net = some (forwardLayers T net) := by
  unfold forwardLayers
  exact (forRangeM_eq_some (fun s : NeuralNetwork => s.frame = net.frame) _ _ _ _ _ rfl
    (fun i s h1 h2 hf => ⟨forwardLayerChecked_eq T i s (WF.of_frame hf hw) h1 (by omega),
      (forwardLayer_frame T i s).trans hf⟩)).1

/-- The checked forward pass ends without a fault, with the result of `Calculate`. -/
theorem CalculateChecked_eq (T : Template) (net : NeuralNetwork) (inputs : List ℚ)
    (hw : WF T net) : CalculateChecked T net inputs = some (Calculate T net inputs) := by
  have hw1 : WF T (setInputs T net inputs) := WF.of_frame (setInputs_frame T net inputs) hw
  have hw2 : WF T (forwardLayers T (setInputs T net inputs)) :=
    WF.of_frame (Calculate_frame T net inputs) hw
  have hout := (forRangeM_eq_some (fun _ : List ℚ => True) 0 T.tOutputs
    (fun i out => ((forwardLayers T (setInputs T net inputs)).neuronChecked (T.tHidden + 1)
      i).bind fun x => some (out.set i x.value))
    (fun i out => out.set i ((forwardLayers T (setInputs T net inputs)).neuron (T.tHidden + 1)
      i).value) (List.replicate T.tOutputs 0) trivial
    (fun i out _ hi _ => ⟨by
      dsimp only
      rw [neuronChecked_eq hw2 (le_refl _) (by rw [hw2.outputs_size]; exact hi),
        Option.some_bind], trivial⟩)).1
  unfold CalculateChecked
  simp only [Option.bind_eq_bind, Option.pure_def]
  rw [setInputsChecked_eq T net inputs hw, Option.some_bind,
    forwardLayersChecked_eq T _ hw1, Option.some_bind, hout, Option.some_bind]
  rfl

theorem dropoutStepChecked_eq (RAND_MAX : Nat) (rand : Nat → Nat → Nat) (T : Template)
    (dropout : ℚ) (net : NeuralNetwork) (hw : WF T net) :
    dropoutStepChecked RAND_MAX rand T dropout net =
      some (dropoutStep RAND_MAX rand T dropout net) := by
  unfold dropoutStepChecked dropoutStep
  split
  swap
  · rfl
  refine (forRangeM_eq_some (fun s : NeuralNetwork => s.frame = net.frame) _ _ _ _ _ rfl
    (fun i s h1 h2 hf => ?_)).1
  unfold for_async
  refine forRangeM_eq_some (fun t : NeuralNetwork => t.frame = net.frame) _ _ _ _ _ hf
    (fun j t _ hj ht => ?_)
  have hwt := WF.of_frame ht hw
  have hsz : j < size2 t.m_neurons i := hwt.lt_size (by omega)
    (by rw [NeuralNetwork.width_of_frame ht, ← NeuralNetwork.width_of_frame hf]; exact hj)
  split
  · simp only [Option.bind_eq_bind]
    rw [modifyNeuronChecked_eq hwt _ (by omega) hsz, Option.some_bind,
      modifyNeuronChecked_eq (WF.of_frame (NeuralNetwork.frame_setValue _ _ _ _) hwt) _
        (by omega) (by rw [NeuralNetwork.modifyNeuron, size2_modify2]; exact hsz)]
    exact ⟨rfl, by simpa using ht⟩
  · exact ⟨rfl, ht⟩

theorem setOutputErrorsChecked_eq (T : Template) (optimal guess : List ℚ) (net : NeuralNetwork)
    (hw : WF T net) :
    setOutputErrorsChecked T optimal guess net = some (setOutputErrors T optimal guess net) := by
  unfold setOutputErrorsChecked setOutputErrors
  refine (forRangeM_eq_some (fun s : NeuralNetwork => s.frame = net.frame) _ _ _ _ _ rfl
    (fun i s _ hi hf => ⟨?_, (NeuralNetwork.frame_setError _ _ _ _).trans hf⟩)).1
  have hws := WF.of_frame hf hw
  exact modifyNeuronChecked_eq hws _ (le_refl _) (by rw [hws.outputs_size]; exact hi)

theorem backNeuronChecked_eq (T : Template) (i j : Nat) (net : NeuralNetwork) (hw : WF T net)
    (hi : i ≤ T.tHidden) (hj : j < net.width i + T.bias) :
    backNeuronChecked i j net = some (backNeuron i j net) ∧
      (backNeuron i j net).frame = net.frame := by
  have hsz : j < size2 net.m_neurons i := hw.lt_size_bias hi hj
  unfold backNeuronChecked backNeuron
  simp only [Option.bind_eq_bind]
  rw [modifyNeuronChecked_eq hw _ (by omega) hsz, Option.some_bind]
  have hf0 : (net.modifyNeuron i j (fun x => { x with error := 0 })).frame = net.frame :=
    NeuralNetwork.frame_setError _ _ _ _
  refine forRangeM_eq_some (fun s : NeuralNetwork => s.frame = net.frame) _ _ _ _ _ hf0
    (fun k s _ hk hf => ⟨?_, (NeuralNetwork.frame_setError _ _ _ _).trans hf⟩)
  have hws := WF.of_frame hf hw
  have hwd : ∀ a, s.width a = net.width a := NeuralNetwork.width_of_frame hf
  rw [NeuralNetwork.width_of_frame hf0] at hk
  rw [linkChecked_eq hws hi (by rw [hwd]; exact hj) (by rw [hwd]; exact hk), Option.some_bind,
    neuronChecked_eq hws (by omega) (hws.lt_size (by omega) (by rw [hwd]; exact hk)),
    Option.some_bind]
  exact modifyNeuronChecked_eq hws _ (by omega) (hws.lt_size_bias hi (by rw [hwd]; exact hj))

theorem propagateErrorsChecked_eq (T : Template) (net : NeuralNetwork) (hw : WF T net) :
    propagateErrorsChecked T net = some (propagateErrors T net) := by
  unfold propagateErrorsChecked propagateErrors
  refine (forDownTo0M_eq_some (fun s : NeuralNetwork => s.frame = net.frame) _ _ _ _ rfl
    (fun i s hi hf => ?_)).1
  unfold backLayer for_async
  refine forRangeM_eq_some (fun t : NeuralNetwork => t.frame = net.frame) _ _ _ _ _ hf (fun j t _ hj ht => ?_)
  have h := backNeuronChecked_eq T i j t (WF.of_frame ht hw) hi
    (by rw [NeuralNetwork.width_of_frame ht, ← NeuralNetwork.width_of_frame hf]; exact hj)
  exact ⟨h.1, h.2.trans ht⟩

theorem updateLinkChecked_eq (T : Template) (lRate : ℚ) (i j k : Nat) (net : NeuralNetwork)
    (hw : WF T net) (hi : i ≤ T.tHidden) (hj : j < net.width i + T.bias)
    (hk : k < net.width (i + 1)) :
    updateLinkChecked lRate i j k net = some (updateLink lRate i j k net) := by
  unfold updateLinkChecked updateLink
  simp only [Option.bind_eq_bind]
  rw [neuronChecked_eq hw (by omega) (hw.lt_size (by omega) hk), Option.some_bind,
    neuronChecked_eq hw (by omega) (hw.lt_size_bias hi hj), Option.some_bind]
  exact modifyLinkChecked_eq hw _ hi hj hk

theorem adjustWeightsChecked_eq (T : Template) (lRate : ℚ) (net : NeuralNetwork)
    (hw : WF T net) : adjustWeightsChecked T lRate net = some (adjustWeights T lRate net) := by
  unfold adjustWeightsChecked adjustWeights
  refine (forRangeM_eq_some (fun s : NeuralNetwork => s.frame = net.frame) _ _ _ _ _ rfl
    (fun i s _ hi hf => ?_)).1
  unfold updateGap for_async
  refine forRangeM_eq_some (fun t : NeuralNetwork => t.frame = net.frame) _ _ _ _ _ hf (fun j t _ hj ht => ?_)
  unfold updateSource
  refine forRangeM_eq_some (fun u : NeuralNetwork => u.frame = net.frame) _ _ _ _ _ ht (fun k u _ hk hu => ?_)
  have hwd : ∀ a, u.width a = net.width a := NeuralNetwork.width_of_frame hu
  refine ⟨updateLinkChecked_eq T lRate i j k u (WF.of_frame hu hw) (by omega) ?_ ?_,
    (NeuralNetwork.frame_modifyLink _ _ _ _).trans hu⟩
  · rw [hwd, ← NeuralNetwork.width_of_frame hf]
    exact hj
  · rw [hwd, ← NeuralNetwork.width_of_frame ht]
    exact hk

/-- The checked training step ends without a fault, with the result of `Train`. -/
theorem TrainChecked_eq (RAND_MAX : Nat) (rand : Nat → Nat → Nat) (T : Template)
    (net : NeuralNetwork) (inputs optimal : List ℚ) (lRate dropout : ℚ) (hw : WF T net) :
    TrainChecked RAND_MAX rand T net inputs optimal lRate dropout =
      some (Train RAND_MAX rand T net inputs optimal lRate dropout) := by
  have hfC := Calculate_frame T net inputs
  have hfD := (dropoutStep_frame RAND_MAX rand T dropout (Calculate T net inputs).1).trans hfC
  have hfE := (setOutputErrors_frame T optimal (Calculate T net inputs).2
    (dropoutStep RAND_MAX rand T dropout (Calculate T net inputs).1)).trans hfD
  have hfP := (propagateErrors_frame T (setOutputErrors T optimal (Calculate T net inputs).2
    (dropoutStep RAND_MAX rand T dropout (Calculate T net inputs).1))).trans hfE
  unfold TrainChecked
  simp only [Option.bind_eq_bind, Option.pure_def]
  rw [CalculateChecked_eq T net inputs hw, Option.some_bind]
  rw [dropoutStepChecked_eq RAND_MAX rand T dropout _ (WF.of_frame hfC hw), Option.some_bind,
    setOutputErrorsChecked_eq T optimal _ _ (WF.of_frame hfD hw), Option.some_bind,
    propagateErrorsChecked_eq T _ (WF.of_frame hfE hw), Option.some_bind,
    adjustWeightsChecked_eq T lRate _ (WF.of_frame hfP hw), Option.some_bind]
  rfl

/-! ## The constructor in `unsigned int` arithmetic -/

theorem forRange_congr {σ : Type} (lo hi : Nat) (f g : Nat → σ → σ) (s : σ)
    (h : ∀ i t, lo ≤ i → i < hi → f i t = g i t) : forRange lo hi f s = forRange lo hi g s := by
  unfold forRange
  refine List.foldl_ext _ _ _ (fun t i hi => ?_)
  rw [List.mem_range'_1] at hi
  exact h i t hi.1 (by omega)

/-- When no sum reaches `2^32`, the constructor in `unsigned int` arithmetic builds the network
of `NeuralNetwork.new`. -/
theorem newUInt_eq_new (T : Template) (hiddenLayers : List Nat) (activation : Activation)
    (range : ℚ × ℚ) (newLink : ℚ × ℚ → Nat → Nat → Nat → Link)
    (hT : T.tHidden + 2 < 4294967296) (hin : T.tInputs + T.bias < 4294967296)
    (hhid : ∀ i, i < T.tHidden → hiddenLayers.getD i 0 + T.bias < 4294967296) :
    NeuralNetwork.newUInt T hiddenLayers activation range newLink =
      NeuralNetwork.new T hiddenLayers activation range newLink := by
  have e2 : uintSum T.tHidden 2 = T.tHidden + 2 := Nat.mod_eq_of_lt hT
  have e3 : uintSum T.tHidden 2 - 1 = T.tHidden + 1 := by rw [e2]; rfl
  have e1 : uintSum T.tHidden 1 = T.tHidden + 1 := Nat.mod_eq_of_lt (by omega)
  have ei : ∀ i, i < T.tHidden + 1 → uintSum i 1 = i + 1 :=
    fun i hi => Nat.mod_eq_of_lt (by omega)
  have ein : uintSum T.tInputs T.bias = T.tInputs + T.bias := Nat.mod_eq_of_lt hin
  have eh : ∀ i, i < T.tHidden →
      uintSum (hiddenLayers.getD i 0) T.bias = hiddenLayers.getD i 0 + T.bias :=
    fun i hi => Nat.mod_eq_of_lt (hhid i hi)
  obtain ⟨-, s2, s3, -⟩ := newStructure_spec T hiddenLayers
  have est : ∀ i, i < T.tHidden + 1 → uintSum ((newStructure T hiddenLayers).getD i 0) T.bias =
      (newStructure T hiddenLayers).getD i 0 + T.bias := by
    intro i hi
    refine Nat.mod_eq_of_lt ?_
    cases i with
    | zero => rw [s2]; exact hin
    | succ i => rw [s3 i (by omega)]; exact hhid i (by omega)
  have hst : (forRange 0 T.tHidden (fun i st => st.set (uintSum i 1) (hiddenLayers.getD i 0))
      ((List.replicate (uintSum T.tHidden 2) 0).set 0 T.tInputs)).set (uintSum T.tHidden 2 - 1)
        T.tOutputs = newStructure T hiddenLayers := by
    rw [e3, e2, forRange_congr 0 T.tHidden _
      (fun i st => st.set (i + 1) (hiddenLayers.getD i 0)) _
      (fun i t _ hi => by rw [ei i (by omega)])]
    rfl
  unfold NeuralNetwork.newUInt
  dsimp only
  rw [hst, e3, e2, e1, ein,
    forRange_congr 0 T.tHidden _ (fun i ns =>
      forRange 0 (hiddenLayers.getD i 0 + T.bias) (fun _ ns =>
        push2 ns (i + 1) (Neuron.new activation)) ns) _
      (fun i t _ hi => by rw [eh i hi, ei i (by omega)]),
    forRange_congr 0 (T.tHidden + 1) _ (fun i ls =>
      forRange 0 ((newStructure T hiddenLayers).getD i 0 + T.bias) (fun n1 ls =>
        forRange 0 ((newStructure T hiddenLayers).getD (i + 1) 0) (fun n2 ls =>
          push2 ls i (newLink range i n1 n2)) ls) ls) _
      (fun i t _ hi => by rw [est i hi, ei i hi])]
  rfl

/-! ## Saving, then loading -/

/-- C12. Determinism and statelessness of `Calculate`. `Calculate` changes no link weight, and
the array it returns depends only on the inputs, the link weights and the bias-slot values: two
well-formed states of a network (same structure, same activation) that agree on the weights
and on the value of the bias slot `structure[i]` of every layer `i ≤ tHidden` return equal
outputs for the same inputs, whatever the other neurons' `value`, `raw` and `error` are; in
particular the outputs of two calls in a row with the same inputs are equal. -/
theorem Calculate_deterministic (T : Template) (net₁ net₂ : NeuralNetwork) (inputs : List ℚ)
    (h₁ : WF T net₁) (h₂ : WF T net₂) (hl : net₁.m_links = net₂.m_links)
    (hs : net₁.m_structure = net₂.m_structure) (ha : net₁.m_activation = net₂.m_activation)
    (hb : ∀ i, i ≤ T.tHidden →
      (net₁.neuron i (net₁.width i)).value = (net₂.neuron i (net₂.width i)).value) :
    (Calculate T net₁ inputs).2 = (Calculate T net₂ inputs).2 ∧
    (Calculate T net₁ inputs).1.m_links = net₁.m_links ∧
    (Calculate T (Calculate T net₁ inputs).1 inputs).2 = (Calculate T net₁ inputs).2 := by
  refine ⟨Calculate_snd_congr T net₁ net₂ inputs h₁ h₂ hl hs ha hb, Calculate_links T net₁ inputs,
    ?_⟩
  have hf := Calculate_frame T net₁ inputs
  refine Calculate_snd_congr T _ net₁ inputs (WF.of_frame hf h₁) h₁ (Calculate_links T net₁ inputs)
    (NeuralNetwork.m_structure_of_frame hf) (NeuralNetwork.m_activation_of_frame hf) ?_
  intro i _
  rw [NeuralNetwork.width_of_frame hf, (Calculate_spec T net₁ inputs h₁).2.1 i _ (le_refl _)]

/-- C12, at the scenario network fresh from the constructor and after a forward pass on the
other inputs `[4, -2]`: both return `[3]` for `[1, 1]`. -/
theorem Calculate_deterministic_witness :
    WF scenarioTemplate (scenarioNet scenarioWeights) ∧
    WF scenarioTemplate (Calculate scenarioTemplate (scenarioNet scenarioWeights) [4, -2]).1 ∧
    (Calculate scenarioTemplate
      (Calculate scenarioTemplate (scenarioNet scenarioWeights) [4, -2]).1 [1, 1]).2 = [3] := by
  have hb := scenarioNet_built scenarioWeights
  have hf := Calculate_frame scenarioTemplate (scenarioNet scenarioWeights) [4, -2]
  have h := Calculate_deterministic scenarioTemplate
    (Calculate scenarioTemplate (scenarioNet scenarioWeights) [4, -2]).1
    (scenarioNet scenarioWeights) [1, 1] (WF.of_frame hf hb.wf) hb.wf
    (Calculate_links _ _ _) (NeuralNetwork.m_structure_of_frame hf)
    (NeuralNetwork.m_activation_of_frame hf)
    (fun i _ => by
      rw [NeuralNetwork.width_of_frame hf,
        (Calculate_spec scenarioTemplate _ [4, -2] hb.wf).2.1 i _ (le_refl _)])
  refine ⟨hb.wf, WF.of_frame hf hb.wf, ?_⟩
  rw [h.1, Calculate_scenario]
  simp [scenarioWeights]
  norm_num

/-- C13, at a failing input. With `RAND_MAX = 32767` and `rand()` returning `RAND_MAX` at every
draw, `randRange(0, 1)` is `1`, not below `dropout = 1`: `Train` with `dropout = 1.0` on the
scenario network leaves hidden neuron `0` at the `value` and `raw` of the forward pass, `9`. -/
theorem Train_dropout_one_keeps_neuron :
    Built scenarioTemplate (scenarioNet scenarioWeights) ∧
    randRange 32767 32767 0 1 = 1 ∧ ¬ (randRange 32767 32767 0 1 < 1) ∧
    ((Train 32767 (fun _ _ => 32767) scenarioTemplate (scenarioNet scenarioWeights) [1, 1] [5]
      (1 / 10) 1).1.neuron 1 0).value = 9 ∧
    ((Train 32767 (fun _ _ => 32767) scenarioTemplate (scenarioNet scenarioWeights) [1, 1] [5]
      (1 / 10) 1).1.neuron 1 0).raw = 9 := by
  have h : randRange 32767 32767 0 1 = 1 := by
    simp [randRange]
  refine ⟨scenarioNet_built scenarioWeights, h, by rw [h]; exact lt_irrefl _, ?_, ?_⟩
  · simp [Train, Calculate, randRange, scenarioNet, NeuralNetwork.new, scenarioTemplate,
      forRange, for_async, List.range', push2, Template.bias, NeuralNetwork.modifyNeuron,
      modify2, forDownTo0, NeuralNetwork.width, NeuralNetwork.link, NeuralNetwork.neuron, get2,
      linkIndex, Neuron.new, Activation.none, NeuralNetwork.modifyLink, scenarioWeights]
    norm_num
  · simp [Train, Calculate, randRange, scenarioNet, NeuralNetwork.new, scenarioTemplate,
      forRange, for_async, List.range', push2, Template.bias, NeuralNetwork.modifyNeuron,
      modify2, forDownTo0, NeuralNetwork.width, NeuralNetwork.link, NeuralNetwork.neuron, get2,
      linkIndex, Neuron.new, Activation.none, NeuralNetwork.modifyLink, scenarioWeights]
    norm_num

/-- The draw as one fraction. -/
theorem randRange_eq (R r : Nat) (min max : ℚ) (hR : 0 < R) (hmm : min < max) :
    randRange R r min max = min + (r : ℚ) * (max - min) / (R : ℚ) := by
  have h1 : (R : ℚ) ≠ 0 := by exact_mod_cast (Nat.pos_iff_ne_zero.mp hR)
  have h2 : max - min ≠ 0 := sub_ne_zero.mpr (ne_of_gt hmm)
  unfold randRange
  rw [add_zero]
  field_simp

/-- C16, as stated, fails. With `RAND_MAX = 32767`, `min = 0 < max = 1` and the largest result
`rand()` can return, `r = RAND_MAX`, the draw is `1 = max`: it does not lie in `[min, max)`. -/
theorem randRange_range_counterexample :
    (0 : ℚ) < 1 ∧ 32767 ≤ 32767 ∧ randRange 32767 32767 0 1 = 1 ∧
    ¬ (randRange 32767 32767 0 1 < 1) := by
  have h : randRange 32767 32767 0 1 = 1 := by
    simp [randRange]
  refine ⟨by norm_num, le_refl _, h, ?_⟩
  rw [h]
  exact lt_irrefl _

/-- C16, amended. Range of the uniform draw. For all `min < max` and every result `r` of
`rand()` with `0 ≤ r ≤ RAND_MAX`, `randRange(min, max) = min + r / (RAND_MAX / (max - min))`
lies in the closed range `[min, max]`; it is below `max` exactly when `r < RAND_MAX`. -/
theorem randRange_range (RAND_MAX r : Nat) (min max : ℚ) (hR : 0 < RAND_MAX) (hmm : min < max)
    (hr : r ≤ RAND_MAX) :
    randRange RAND_MAX r min max = min + (r : ℚ) / ((RAND_MAX : ℚ) / (max - min)) ∧
    min ≤ randRange RAND_MAX r min max ∧ randRange RAND_MAX r min max ≤ max ∧
    (randRange RAND_MAX r min max < max ↔ r < RAND_MAX) := by
  have hRq : (0 : ℚ) < (RAND_MAX : ℚ) := by exact_mod_cast hR
  have hd : 0 < max - min := sub_pos.mpr hmm
  have hrq : (r : ℚ) ≤ (RAND_MAX : ℚ) := by exact_mod_cast hr
  have e := randRange_eq RAND_MAX r min max hR hmm
  refine ⟨by unfold randRange; rw [add_zero], ?_, ?_, ?_⟩
  · rw [e]
    have : 0 ≤ (r : ℚ) * (max - min) / (RAND_MAX : ℚ) :=
      div_nonneg (mul_nonneg (Nat.cast_nonneg r) (le_of_lt hd)) (le_of_lt hRq)
    linarith
  · rw [e]
    have : (r : ℚ) * (max - min) / (RAND_MAX : ℚ) ≤ max - min := by
      rw [div_le_iff₀ hRq]
      nlinarith
    linarith
  · rw [e]
    constructor
    · intro h
      have h1 : (r : ℚ) * (max - min) / (RAND_MAX : ℚ) < max - min := by linarith
      rw [div_lt_iff₀ hRq] at h1
      have h2 : (r : ℚ) < (RAND_MAX : ℚ) := by
        by_contra hc
        have : (RAND_MAX : ℚ) ≤ (r : ℚ) := not_lt.mp hc
        nlinarith
      exact_mod_cast h2
    · intro h
      have h2 : (r : ℚ) < (RAND_MAX : ℚ) := by exact_mod_cast h
      have h1 : (r : ℚ) * (max - min) / (RAND_MAX : ℚ) < max - min := by
        rw [div_lt_iff₀ hRq]
        nlinarith
      linarith

/-- C16, amended, at `RAND_MAX = 32767`, `r = 100`, `min = 0`, `max = 1`. -/
theorem randRange_range_witness :
    0 < 32767 ∧ (0 : ℚ) < 1 ∧ 100 ≤ 32767 ∧ randRange 32767 100 0 1 < 1 := by
  have h := randRange_range 32767 100 0 1 (by decide) (by norm_num) (by decide)
  exact ⟨by decide, by norm_num, by decide, h.2.2.2.mpr (by decide)⟩

/-- C17, as stated, fails. The call `map(50, 0, 0, 0, 100)` has `inputMin == inputMax`: the
division by `inputMax - inputMin = 0` is performed and the value returned is no finite number,
neither a rejection of the call nor a value clamped into `[outputMin, outputMax]`. -/
theorem map_degenerate_counterexample :
    map 50 0 0 0 100 = .nonFinite ∧
    ∀ q : ℚ, 0 ≤ q → q ≤ 100 → map 50 0 0 0 100 ≠ .finite q := by
  have h : map 50 0 0 0 100 = .nonFinite := by
    simp [map]
  refine ⟨h, fun q _ _ => ?_⟩
  rw [h]
  exact fun hc => DoubleResult.noConfusion hc

/-- C17, amended. `map` has no guard: for every `value`, `outputMin` and `outputMax`, called
with `inputMin == inputMax` it divides by `inputMax - inputMin = 0` and returns no finite
number; called with `inputMin ≠ inputMax` it returns
`outputMin + ((outputMax - outputMin) / (inputMax - inputMin)) * (value - inputMin)`. -/
theorem map_unguarded (value inputMin inputMax outputMin outputMax : ℚ) :
    (inputMin = inputMax → map value inputMin inputMax outputMin outputMax = .nonFinite) ∧
    (inputMin ≠ inputMax → map value inputMin inputMax outputMin outputMax =
      .finite (outputMin + ((outputMax - outputMin) / (inputMax - inputMin))
        * (value - inputMin))) := by
  constructor
  · intro h
    unfold map
    rw [if_pos (by rw [h, sub_self])]
  · intro h
    unfold map
    rw [if_neg (sub_ne_zero.mpr (Ne.symm h))]

/-- C17, amended, at `map(50, 0, 100, 0, 10)` and `map(50, 7, 7, 0, 10)`. -/
theorem map_unguarded_witness :
    (0 : ℚ) ≠ 100 ∧ map 50 0 100 0 10 = .finite 5 ∧ map 50 7 7 0 10 = .nonFinite := by
  have h := map_unguarded 50 0 100 0 10
  have h7 := map_unguarded 50 7 7 0 10
  refine ⟨by norm_num, ?_, h7.1 rfl⟩
  rw [h.2 (by norm_num)]
  norm_num

/-- C19 fails as stated: the template `<4294967295, 0, 1, true>`. The constructor's loop bound
`tInputs + tBias` is `0` in `unsigned int`, so layer 0 receives no neuron and gap 0 no link,
while `structure[0] = 4294967295`; the first store of `Calculate`, `m_neurons[0][0].value =
inputs[0]`, is out of bounds, in a direct call and in the call `Train` makes. -/
theorem Calculate_out_of_bounds :
    uintSum edgeTemplate.tInputs edgeTemplate.bias = 0 ∧
    edgeNet.m_structure = [4294967295, 1] ∧
    edgeNet.m_neurons.map List.length = [0, 1] ∧
    edgeNet.m_links.map List.length = [0] ∧
    CalculateChecked edgeTemplate edgeNet (List.replicate 4294967295 1) = none ∧
    TrainChecked 32767 (fun _ _ => 0) edgeTemplate edgeNet (List.replicate 4294967295 1) [1]
      (1 / 10) 0 = none := by
  have hn : edgeNet.m_neurons.map List.length = [0, 1] := by
    simp [edgeNet, NeuralNetwork.newUInt, edgeTemplate, uintSum, Template.bias, forRange, push2]
  have h0 : ∀ f, edgeNet.modifyNeuronChecked 0 0 f = none := by
    intro f
    have hs : size2 edgeNet.m_neurons 0 = 0 := by
      simp [size2, edgeNet, NeuralNetwork.newUInt, edgeTemplate, uintSum, Template.bias,
        forRange, push2]
    unfold NeuralNetwork.modifyNeuronChecked
    rw [if_neg]
    rw [hs]
    exact fun h => Nat.lt_irrefl 0 h.2
  have hc : ∀ inputs, CalculateChecked edgeTemplate edgeNet inputs = none := by
    intro inputs
    unfold CalculateChecked setInputsChecked
    rw [forRangeM_eq_none 0 edgeTemplate.tInputs _ edgeNet (by decide) (h0 _)]
    rfl
  refine ⟨by decide, ?_, hn, ?_, hc _, ?_⟩
  · simp [edgeNet, NeuralNetwork.newUInt, edgeTemplate, uintSum, Template.bias, forRange]
  · simp [edgeNet, NeuralNetwork.newUInt, edgeTemplate, uintSum, Template.bias, forRange, push2]
  · unfold TrainChecked
    rw [hc]
    rfl

/-- C19, amended. Index safety. Let the constructor run in `unsigned int` arithmetic build a
network from hidden widths for which no sum wraps around (`tHidden + 2`, `tInputs + tBias` and
every `hiddenLayers[i] + tBias` stay below `2^32`), zero widths included. Then for every state
`net` holding containers of the sizes built at construction (the member functions never resize
them) and every input, every access `m_neurons[i][j]` and `m_links[i][index]` that `Calculate`
and `Train` (dropout, error propagation and weight update loops) perform is within bounds: the
checked runs end without a fault, with the results of the plain runs; the layers `0..tHidden`
hold `structure[i] + tBias` neurons, the output layer `tOutputs`, and gap `i` holds
`(structure[i] + tBias) * structure[i+1]` links, above every flat index computed. -/
theorem index_safety (RAND_MAX : Nat) (rand : Nat → Nat → Nat) (T : Template)
    (hiddenLayers : List Nat) (activation : Activation) (linkInitalRange : ℚ × ℚ)
    (newLink : ℚ × ℚ → Nat → Nat → Nat → Link) (net : NeuralNetwork)
    (inputs optimal : List ℚ) (lRate dropout : ℚ)
    (hT : T.tHidden + 2 < 4294967296) (hin : T.tInputs + T.bias < 4294967296)
    (hhid : ∀ i, i < T.tHidden → hiddenLayers.getD i 0 + T.bias < 4294967296)
    (hnet : net.frame =
      (NeuralNetwork.newUInt T hiddenLayers activation linkInitalRange newLink).frame) :
    CalculateChecked T net inputs = some (Calculate T net inputs) ∧
    TrainChecked RAND_MAX rand T net inputs optimal lRate dropout =
      some (Train RAND_MAX rand T net inputs optimal lRate dropout) ∧
    (∀ i, i ≤ T.tHidden → size2 net.m_neurons i = net.width i + T.bias) ∧
    size2 net.m_neurons (T.tHidden + 1) = T.tOutputs ∧
    (∀ i, i ≤ T.tHidden → size2 net.m_links i = (net.width i + T.bias) * net.width (i + 1)) ∧
    (∀ i j k, i ≤ T.tHidden → j < net.width i + T.bias → k < net.width (i + 1) →
      linkIndex (net.width (i + 1)) j k < size2 net.m_links i) := by
  rw [newUInt_eq_new T hiddenLayers activation linkInitalRange newLink hT hin hhid] at hnet
  have hw : WF T net :=
    WF.of_frame hnet (new_WF T hiddenLayers activation linkInitalRange newLink)
  refine ⟨CalculateChecked_eq T net inputs hw,
    TrainChecked_eq RAND_MAX rand T net inputs optimal lRate dropout hw,
    hw.neurons_size, hw.outputs_size, hw.links_size, fun i j k hi hj hk => ?_⟩
  rw [hw.links_size i hi]
  exact linkIndex_lt hj hk

/-- C19 amended, at the template `<2, 1, 1, true>` with the hidden width `0`: the checked runs
of `Calculate` and `Train` on the constructed network end without a fault. -/
theorem index_safety_witness :
    scenarioTemplate.tHidden + 2 < 4294967296 ∧
    scenarioTemplate.tInputs + scenarioTemplate.bias < 4294967296 ∧
    (∀ i, i < scenarioTemplate.tHidden →
      ([0] : List Nat).getD i 0 + scenarioTemplate.bias < 4294967296) ∧
    CalculateChecked scenarioTemplate
      (NeuralNetwork.newUInt scenarioTemplate [0] Activation.none (-5, 5) (fun _ _ _ _ => ⟨1⟩))
      [1, 1] =
    some (Calculate scenarioTemplate
      (NeuralNetwork.newUInt scenarioTemplate [0] Activation.none (-5, 5) (fun _ _ _ _ => ⟨1⟩))
      [1, 1]) ∧
    (TrainChecked 32767 (fun _ _ => 0) scenarioTemplate
      (NeuralNetwork.newUInt scenarioTemplate [0] Activation.none (-5, 5) (fun _ _ _ _ => ⟨1⟩))
      [1, 1] [5] (1 / 10) (1 / 2)).isSome = true := by
  have hh : ∀ i, i < scenarioTemplate.tHidden →
      ([0] : List Nat).getD i 0 + scenarioTemplate.bias < 4294967296 := by
    intro i hi
    have : i = 0 := Nat.lt_one_iff.mp hi
    subst this
    decide
  have h := index_safety 32767 (fun _ _ => 0) scenarioTemplate [0] Activation.none (-5, 5)
    (fun _ _ _ _ => ⟨1⟩)
    (NeuralNetwork.newUInt scenarioTemplate [0] Activation.none (-5, 5) (fun _ _ _ _ => ⟨1⟩))
    [1, 1] [5] (1 / 10) (1 / 2) (by decide) (by decide) hh rfl
  refine ⟨by decide, by decide, hh, h.1, ?_⟩
  rw [h.2.1]
  rfl

end nn
